import Mathlib

-- Verification of the notatin Windows-registry hive parser.
-- Byte buffers are modelled as `List Nat` (each element one byte, < 256 on real
-- inputs; none of the properties below depend on the bound).  Rust functions are
-- embedded as executable Lean definitions, translated from the source files
-- under src/: reg_header.rs, base_block.rs, filter.rs, cell_key_security.rs,
-- sub_key_list_lf.rs and macros.rs.

/-- Little-endian value of a byte list (least significant byte first).
Mirrors `u32::from_le_bytes` / nom's `le_u16`/`le_u32`/`le_u64` on the
corresponding slice lengths. -/
def leVal : List Nat → Nat
  | [] => 0
  | b :: rest => b + 256 * leVal rest

/-- The little-endian 32-bit word of `bytes` at byte offset `i`
(`u32::from_le_bytes(&bytes[i..i+4])` in the source). -/
def leU32At (bytes : List Nat) (i : Nat) : Nat :=
  leVal ((bytes.drop i).take 4)

/-- The `while index <= 0x01FB` loop of `RegHeaderBase::calculate_checksum`
(src/reg_header.rs): starting at `index` with accumulator `xsum`, XOR in the
little-endian u32 word at each offset `index, index+4, ...` while
`index ≤ 0x01FB`. -/
def checksumLoop (bytes : List Nat) (index xsum : Nat) : Nat :=
  if h : index ≤ 0x01FB then
    checksumLoop bytes (index + 4) (Nat.xor xsum (leU32At bytes index))
  else
    xsum
termination_by 0x01FC - index
decreasing_by simp_wf; omega

/-- `RegHeaderBase::calculate_checksum` (src/reg_header.rs lines 126-142):
XOR the 127 words, then remap `0 → 1` and `0xFFFFFFFF → 0xFFFFFFFE`. -/
def RegHeaderBase.calculate_checksum (bytes : List Nat) : Nat :=
  let xsum := checksumLoop bytes 0 0
  if xsum = 0 then 1
  else if xsum = 0xFFFFFFFF then 0xFFFFFFFE
  else xsum

theorem checksumLoop_spec (bytes : List Nat) :
    ∀ n k xsum, k + n = 127 →
      checksumLoop bytes (4 * k) xsum =
        (List.range' k n).foldl (fun acc j => Nat.xor acc (leU32At bytes (4 * j))) xsum := by
  intro n
  induction n with
  | zero =>
    intro k xsum hk
    rw [checksumLoop]
    have hno : ¬ (4 * k ≤ 0x01FB) := by omega
    simp [hno]
  | succ n ih =>
    intro k xsum hk
    rw [checksumLoop]
    have hyes : 4 * k ≤ 0x01FB := by omega
    rw [dif_pos hyes]
    have h4 : 4 * k + 4 = 4 * (k + 1) := by ring
    rw [h4, ih (k + 1) _ (by omega), List.range'_succ]
    rfl

/-- C1: for every byte buffer of length at least 0x1FC,
`RegHeaderBase::calculate_checksum` returns the XOR of the 127 little-endian
32-bit words at offsets 0, 4, ..., 0x1F8, except that a result of 0 is remapped
to 1 and a result of 0xFFFFFFFF is remapped to 0xFFFFFFFE; consequently the
function never returns 0 or 0xFFFFFFFF.  (The length bound is what keeps the
Rust slice indexing `bytes[index..index+4]` in bounds; the equality and the two
disequalities are proved under it.) -/
theorem claim_C1_checksum (bytes : List Nat) (hlen : 0x01FC ≤ bytes.length) :
    (RegHeaderBase.calculate_checksum bytes =
      (fun x => if x = 0 then 1 else if x = 0xFFFFFFFF then 0xFFFFFFFE else x)
        ((List.range 127).foldl (fun acc k => Nat.xor acc (leU32At bytes (4 * k))) 0))
    ∧ RegHeaderBase.calculate_checksum bytes ≠ 0
    ∧ RegHeaderBase.calculate_checksum bytes ≠ 0xFFFFFFFF := by
  have hx : checksumLoop bytes 0 0 =
      (List.range 127).foldl (fun acc k => Nat.xor acc (leU32At bytes (4 * k))) 0 := by
    have h := checksumLoop_spec bytes 127 0 0 (by omega)
    simpa [List.range_eq_range'] using h
  have heq : RegHeaderBase.calculate_checksum bytes =
      (fun x => if x = 0 then 1 else if x = 0xFFFFFFFF then 0xFFFFFFFE else x)
        ((List.range 127).foldl (fun acc k => Nat.xor acc (leU32At bytes (4 * k))) 0) := by
    unfold RegHeaderBase.calculate_checksum
    rw [hx]
  refine ⟨heq, ?_, ?_⟩ <;> rw [heq] <;> simp only [] <;> split_ifs <;> omega

/-- Witness for C1 at a concrete 0x1FC-byte buffer. -/
theorem claim_C1_checksum_witness :
    0x01FC ≤ (List.replicate 0x01FC 0).length ∧
    ((RegHeaderBase.calculate_checksum (List.replicate 0x01FC 0) =
      (fun x => if x = 0 then 1 else if x = 0xFFFFFFFF then 0xFFFFFFFE else x)
        ((List.range 127).foldl
          (fun acc k => Nat.xor acc (leU32At (List.replicate 0x01FC 0) (4 * k))) 0))
    ∧ RegHeaderBase.calculate_checksum (List.replicate 0x01FC 0) ≠ 0
    ∧ RegHeaderBase.calculate_checksum (List.replicate 0x01FC 0) ≠ 0xFFFFFFFF) :=
  ⟨by simp only [List.length_replicate]; omega,
   claim_C1_checksum (List.replicate 0x01FC 0) (by simp only [List.length_replicate]; omega)⟩

-- ## Filter (src/filter.rs)
-- Rust `String`s are modelled as their UTF-8 byte lists; the backslash byte is
-- 92.  All paths the filter handles are ASCII, where char- and byte-level
-- operations coincide.

/-- `u8/char::to_ascii_lowercase` on one byte: ASCII uppercase letters (65-90)
are shifted to lowercase, everything else is unchanged. -/
def toAsciiLowerByte (b : Nat) : Nat :=
  if 65 ≤ b ∧ b ≤ 90 then b + 32 else b

/-- `str::to_ascii_lowercase` on a byte string. -/
def toAsciiLower (s : List Nat) : List Nat :=
  s.map toAsciiLowerByte

/-- Rust `str::split('\\')` modelled on the byte list.  As in Rust, splitting
the empty string yields one empty segment. -/
def splitBackslash : List Nat → List (List Nat)
  | [] => [[]]
  | b :: rest =>
    if b = 92 then [] :: splitBackslash rest
    else
      match splitBackslash rest with
      | [] => [[b]]
      | s :: ss => (b :: s) :: ss

/-- `RegQueryComponent` (filter.rs lines 81-84).  The regex engine is external
to the repository, so a regex component is modelled by its matching predicate
on byte strings (`Regex::is_match`). -/
inductive RegQueryComponent where
  | componentString : List Nat → RegQueryComponent
  | componentRegex : (List Nat → Bool) → RegQueryComponent

/-- `RegQuery` (filter.rs lines 130-137). -/
structure RegQuery where
  key_path : List RegQueryComponent
  key_path_has_root : Bool
  children : Bool

/-- `FilterFlags` bit values (filter.rs lines 178-184), on their `u16` bits. -/
def FILTER_NO_MATCH : Nat := 0x0001

def FILTER_ITERATE_KEYS : Nat := 0x0002

def FILTER_KEY_MATCH : Nat := 0x0004

/-- The `for key_path_segment in key_path_iterator` loop of
`RegQuery::check_key_match` (filter.rs lines 148-174): `segs` are the remaining
key-path segments, `fs` the remaining query components (the current
`filter_path_segment` is the head). -/
def checkKeyMatchLoop : List (List Nat) → List RegQueryComponent → Nat
  | [], fs =>
    if fs.isEmpty then FILTER_ITERATE_KEYS ||| FILTER_KEY_MATCH
    else FILTER_ITERATE_KEYS
  | _ :: _, [] => FILTER_NO_MATCH
  | seg :: rest, f :: fs =>
    match f with
    | RegQueryComponent.componentString s =>
      if s = toAsciiLower seg then checkKeyMatchLoop rest fs else FILTER_NO_MATCH
    | RegQueryComponent.componentRegex r =>
      if r (toAsciiLower seg) then checkKeyMatchLoop rest fs else FILTER_NO_MATCH

/-- The key-path segments `check_key_match` iterates over:
`key_name[root_key_name_offset..].split('\\')`, with the offset forced to 0
when the query carries the root name (filter.rs lines 141-144). -/
def segsOfKey (q : RegQuery) (key_name : List Nat) (root_key_name_offset : Nat) :
    List (List Nat) :=
  splitBackslash (key_name.drop (if q.key_path_has_root then 0 else root_key_name_offset))

/-- `RegQuery::check_key_match` (filter.rs lines 140-175). -/
def RegQuery.check_key_match (q : RegQuery) (key_name : List Nat)
    (root_key_name_offset : Nat) : Nat :=
  checkKeyMatchLoop (segsOfKey q key_name root_key_name_offset) q.key_path

/-- Whether one query component accepts one key-path segment, exactly as
tested inside the loop of `check_key_match`. -/
def componentMatchesSeg : RegQueryComponent → List Nat → Bool
  | RegQueryComponent.componentString s, seg => decide (s = toAsciiLower seg)
  | RegQueryComponent.componentRegex r, seg => r (toAsciiLower seg)

/-- `RegQueryBuilder::from_key` (filter.rs lines 94-108): trim trailing
backslashes, ASCII-lowercase, split on backslash, one literal component per
segment; `key_path_has_root` and `children` default to false. -/
def RegQueryBuilder.from_key (key_path : List Nat) : RegQuery :=
  { key_path :=
      (splitBackslash (toAsciiLower ((key_path.reverse.dropWhile (fun b => b == 92)).reverse))).map
        RegQueryComponent.componentString,
    key_path_has_root := false,
    children := false }

theorem checkKeyMatchLoop_query_exhausted :
    ∀ (fs : List RegQueryComponent) (segs : List (List Nat)),
      fs.length < segs.length →
      (∀ p ∈ fs.zip segs, componentMatchesSeg p.1 p.2 = true) →
      checkKeyMatchLoop segs fs = FILTER_NO_MATCH
  | [], [], hlen, _ => absurd hlen (by simp)
  | f :: fs, [], hlen, _ => absurd hlen (by simp)
  | [], seg :: rest, _, _ => rfl
  | f :: fs, seg :: rest, hlen, hmatch => by
    have h1 : componentMatchesSeg f seg = true :=
      hmatch (f, seg) (by simp [List.zip_cons_cons])
    have hrec := checkKeyMatchLoop_query_exhausted fs rest (by simpa using hlen)
      (fun p hp => hmatch p (by simp [List.zip_cons_cons, hp]))
    cases f with
    | componentString s =>
      have hs : s = toAsciiLower seg := by simpa [componentMatchesSeg] using h1
      simpa [checkKeyMatchLoop, hs] using hrec
    | componentRegex r =>
      have hr : r (toAsciiLower seg) = true := by simpa [componentMatchesSeg] using h1
      simpa [checkKeyMatchLoop, hr] using hrec

theorem checkKeyMatchLoop_exact_match :
    ∀ (fs : List RegQueryComponent) (segs : List (List Nat)),
      fs.length = segs.length →
      (∀ p ∈ fs.zip segs, componentMatchesSeg p.1 p.2 = true) →
      checkKeyMatchLoop segs fs = FILTER_ITERATE_KEYS ||| FILTER_KEY_MATCH
  | [], [], _, _ => rfl
  | f :: fs, [], hlen, _ => by simp at hlen
  | [], seg :: rest, hlen, _ => by simp at hlen
  | f :: fs, seg :: rest, hlen, hmatch => by
    have h1 : componentMatchesSeg f seg = true :=
      hmatch (f, seg) (by simp [List.zip_cons_cons])
    have hrec := checkKeyMatchLoop_exact_match fs rest (by simpa using hlen)
      (fun p hp => hmatch p (by simp [List.zip_cons_cons, hp]))
    cases f with
    | componentString s =>
      have hs : s = toAsciiLower seg := by simpa [componentMatchesSeg] using h1
      simpa [checkKeyMatchLoop, hs] using hrec
    | componentRegex r =>
      have hr : r (toAsciiLower seg) = true := by simpa [componentMatchesSeg] using h1
      simpa [checkKeyMatchLoop, hr] using hrec

theorem checkKeyMatchLoop_lower_congr :
    ∀ (segs segs' : List (List Nat)) (fs : List RegQueryComponent),
      segs.map toAsciiLower = segs'.map toAsciiLower →
      checkKeyMatchLoop segs fs = checkKeyMatchLoop segs' fs
  | [], [], fs, _ => rfl
  | [], s' :: r', fs, h => by simp at h
  | s :: r, [], fs, h => by simp at h
  | s :: r, s' :: r', fs, h => by
    simp only [List.map_cons, List.cons.injEq] at h
    obtain ⟨h1, h2⟩ := h
    cases fs with
    | nil => rfl
    | cons f fs =>
      cases f with
      | componentString c =>
        simp only [checkKeyMatchLoop, h1]
        split_ifs with hc
        · exact checkKeyMatchLoop_lower_congr r r' fs h2
        · rfl
      | componentRegex rx =>
        simp only [checkKeyMatchLoop, h1]
        split_ifs with hc
        · exact checkKeyMatchLoop_lower_congr r r' fs h2
        · rfl

theorem splitBackslash_ne_nil : ∀ s : List Nat, splitBackslash s ≠ []
  | [] => by simp [splitBackslash]
  | b :: rest => by
    by_cases hb : b = 92
    · simp [splitBackslash, hb]
    · simp only [splitBackslash, if_neg hb]
      cases hs : splitBackslash rest with
      | nil => simp
      | cons s ss => simp

theorem toAsciiLowerByte_eq_backslash (b : Nat) : toAsciiLowerByte b = 92 ↔ b = 92 := by
  unfold toAsciiLowerByte
  split_ifs with h <;> omega

theorem splitBackslash_map_lower :
    ∀ s : List Nat, splitBackslash (toAsciiLower s) = (splitBackslash s).map toAsciiLower
  | [] => by simp [splitBackslash, toAsciiLower]
  | b :: rest => by
    have ih := splitBackslash_map_lower rest
    by_cases hb : b = 92
    · subst hb
      have hlb : toAsciiLowerByte 92 = 92 := by decide
      simp only [toAsciiLower, List.map_cons, hlb]
      simp only [toAsciiLower] at ih
      simp [splitBackslash, ih, toAsciiLower]
    · have hlb : ¬ toAsciiLowerByte b = 92 := fun hx => hb ((toAsciiLowerByte_eq_backslash b).mp hx)
      cases hs : splitBackslash rest with
      | nil => exact absurd hs (splitBackslash_ne_nil rest)
      | cons s ss =>
        have ih2 : splitBackslash (List.map toAsciiLowerByte rest) =
            toAsciiLower s :: List.map toAsciiLower ss := by
          simpa [toAsciiLower, hs] using ih
        simp [toAsciiLower, splitBackslash, hlb, hb, ih2, hs]

/-- The single-literal-segment query for the string `a` (no root, no children),
used as concrete input below. -/
def queryA : RegQuery :=
  { key_path := [RegQueryComponent.componentString [97]],
    key_path_has_root := false,
    children := false }

/-- C2 counterexample: with the query `a` the key path `a\b`
(bytes [97, 92, 98]) satisfies the claim's hypothesis — the only query segment
matches the first key-path segment and the query is exhausted while a key-path
segment remains — yet `check_key_match` returns `FILTER_NO_MATCH`, which
contains neither `FILTER_ITERATE_KEYS` nor `FILTER_KEY_MATCH`; the claim's
asserted return of `FILTER_ITERATE_KEYS` is therefore false here. -/
theorem claim_C2_counterexample :
    RegQuery.check_key_match queryA [97, 92, 98] 0 = FILTER_NO_MATCH
    ∧ queryA.key_path.length < (segsOfKey queryA [97, 92, 98] 0).length
    ∧ (∀ p ∈ queryA.key_path.zip (segsOfKey queryA [97, 92, 98] 0),
        componentMatchesSeg p.1 p.2 = true)
    ∧ FILTER_NO_MATCH &&& FILTER_ITERATE_KEYS = 0
    ∧ FILTER_NO_MATCH &&& FILTER_KEY_MATCH = 0 :=
  ⟨rfl, by decide, by decide, by decide, by decide⟩

/-- C2 (amended): for every `RegQuery` and key path such that each query
segment matches the corresponding key-path segment but the query runs out of
segments while key-path segments remain, `RegQuery::check_key_match` returns
`FILTER_NO_MATCH` (so in particular it returns neither `FILTER_ITERATE_KEYS`
nor `FILTER_KEY_MATCH`). -/
theorem claim_C2_amended (q : RegQuery) (key_name : List Nat) (off : Nat)
    (hlen : q.key_path.length < (segsOfKey q key_name off).length)
    (hmatch : ∀ p ∈ q.key_path.zip (segsOfKey q key_name off),
      componentMatchesSeg p.1 p.2 = true) :
    RegQuery.check_key_match q key_name off = FILTER_NO_MATCH :=
  checkKeyMatchLoop_query_exhausted q.key_path (segsOfKey q key_name off) hlen hmatch

/-- Witness for the amended C2: query `a` against key path `a\a`. -/
theorem claim_C2_amended_witness :
    RegQuery.check_key_match queryA [97, 92, 97] 0 = FILTER_NO_MATCH :=
  claim_C2_amended queryA [97, 92, 97] 0 (by decide) (by decide)

/-- C3: for every `RegQuery` and key path whose segments (after the root-name
offset is applied) match the query's segments exactly, with both sequences
exhausted together, `RegQuery::check_key_match` returns both
`FILTER_ITERATE_KEYS` and `FILTER_KEY_MATCH` set. -/
theorem claim_C3_exact_match (q : RegQuery) (key_name : List Nat) (off : Nat)
    (hlen : q.key_path.length = (segsOfKey q key_name off).length)
    (hmatch : ∀ p ∈ q.key_path.zip (segsOfKey q key_name off),
      componentMatchesSeg p.1 p.2 = true) :
    RegQuery.check_key_match q key_name off = FILTER_ITERATE_KEYS ||| FILTER_KEY_MATCH
    ∧ RegQuery.check_key_match q key_name off &&& FILTER_ITERATE_KEYS ≠ 0
    ∧ RegQuery.check_key_match q key_name off &&& FILTER_KEY_MATCH ≠ 0 := by
  unfold RegQuery.check_key_match
  have h := checkKeyMatchLoop_exact_match q.key_path (segsOfKey q key_name off) hlen hmatch
  refine ⟨h, ?_, ?_⟩ <;> rw [h] <;> decide

/-- Witness for C3: query `a` against key path `a`. -/
theorem claim_C3_exact_match_witness :
    RegQuery.check_key_match queryA [97] 0 = FILTER_ITERATE_KEYS ||| FILTER_KEY_MATCH
    ∧ RegQuery.check_key_match queryA [97] 0 &&& FILTER_ITERATE_KEYS ≠ 0
    ∧ RegQuery.check_key_match queryA [97] 0 &&& FILTER_KEY_MATCH ≠ 0 :=
  claim_C3_exact_match queryA [97] 0 (by decide) (by decide)

/-- C8: filter matching is case-insensitive.  For every query built by
`RegQueryBuilder::from_key` and every key path, `RegQuery::check_key_match`
returns the same flags for the key path and for any variant of it that differs
only in ASCII letter case (two byte strings differ only in ASCII letter case
exactly when their ASCII-lowercasings are equal). -/
theorem claim_C8_case_insensitive (kp path path' : List Nat) (off : Nat)
    (h : toAsciiLower path = toAsciiLower path') :
    RegQuery.check_key_match (RegQueryBuilder.from_key kp) path off =
      RegQuery.check_key_match (RegQueryBuilder.from_key kp) path' off := by
  unfold RegQuery.check_key_match
  apply checkKeyMatchLoop_lower_congr
  unfold segsOfKey
  have hd : toAsciiLower (path.drop off) = toAsciiLower (path'.drop off) := by
    unfold toAsciiLower
    rw [List.map_drop, List.map_drop]
    exact congrArg (List.drop off) h
  calc (splitBackslash (path.drop (if (RegQueryBuilder.from_key kp).key_path_has_root
          then 0 else off))).map toAsciiLower
      = splitBackslash (toAsciiLower (path.drop off)) := (splitBackslash_map_lower _).symm
    _ = splitBackslash (toAsciiLower (path'.drop off)) := by rw [hd]
    _ = (splitBackslash (path'.drop (if (RegQueryBuilder.from_key kp).key_path_has_root
          then 0 else off))).map toAsciiLower := splitBackslash_map_lower _

/-- Witness for C8: query from key `a`, key paths `A` and `a`. -/
theorem claim_C8_case_insensitive_witness :
    RegQuery.check_key_match (RegQueryBuilder.from_key [97]) [65] 0 =
      RegQuery.check_key_match (RegQueryBuilder.from_key [97]) [97] 0 :=
  claim_C8_case_insensitive [97] [65] [97] 0 (by decide)

-- ## nom-style byte parsers
-- A parser takes the input byte list and returns either the remaining input
-- paired with the parsed value, or a nom error kind: `Err::Error(Tag)` from a
-- failed `tag`, `Err::Error(Eof)` from the complete number parsers, and
-- `Err::Incomplete` from the streaming `take`s.

inductive PErr where
  | tagErr
  | eofErr
  | incompleteErr
  deriving DecidableEq

def Parser (α : Type) : Type :=
  List Nat → Except PErr (List Nat × α)

def ppure {α : Type} (a : α) : Parser α := fun input =>
  Except.ok (input, a)

def pbind {α β : Type} (p : Parser α) (f : α → Parser β) : Parser β := fun input =>
  match p input with
  | Except.ok (rest, a) => f a rest
  | Except.error e => Except.error e

/-- nom `bytes::complete::tag`: match the literal `t`, else a Tag error. -/
def tagP (t : List Nat) : Parser (List Nat) := fun input =>
  if input.take t.length = t then Except.ok (input.drop t.length, t)
  else Except.error PErr.tagErr

/-- nom `number::complete::le_u16`. -/
def le_u16 : Parser Nat := fun input =>
  if 2 ≤ input.length then Except.ok (input.drop 2, leVal (input.take 2))
  else Except.error PErr.eofErr

/-- nom `number::complete::le_u32`. -/
def le_u32 : Parser Nat := fun input =>
  if 4 ≤ input.length then Except.ok (input.drop 4, leVal (input.take 4))
  else Except.error PErr.eofErr

/-- nom `number::complete::le_u64`. -/
def le_u64 : Parser Nat := fun input =>
  if 8 ≤ input.length then Except.ok (input.drop 8, leVal (input.take 8))
  else Except.error PErr.eofErr

/-- Two's-complement reading of a little-endian 32-bit value as an `i32`. -/
def i32OfLe (v : Nat) : Int :=
  if v < 2 ^ 31 then (v : Int) else (v : Int) - 2 ^ 32

/-- nom `number::complete::le_i32`. -/
def le_i32 : Parser Int := fun input =>
  if 4 ≤ input.length then Except.ok (input.drop 4, i32OfLe (leVal (input.take 4)))
  else Except.error PErr.eofErr

/-- nom `bytes::streaming::take` / the `take!` macro: take `n` bytes, an
Incomplete error if the input is shorter. -/
def takeP (n : Nat) : Parser (List Nat) := fun input =>
  if n ≤ input.length then Except.ok (input.drop n, input.take n)
  else Except.error PErr.incompleteErr

/-- nom `multi::count`: run `p` exactly `n` times, collecting the results. -/
def pcount {α : Type} (p : Parser α) : Nat → Parser (List α)
  | 0 => ppure []
  | n + 1 => pbind p (fun a => pbind (pcount p n) (fun as => ppure (a :: as)))

theorem pbind_ok {α β : Type} {p : Parser α} {f : α → Parser β} {input rest : List Nat}
    {a : α} (h : p input = Except.ok (rest, a)) : pbind p f input = f a rest := by
  unfold pbind
  rw [h]

theorem pbind_ok_inv {α β : Type} {p : Parser α} {f : α → Parser β} {input : List Nat}
    {r : List Nat × β} (h : pbind p f input = Except.ok r) :
    ∃ rest a, p input = Except.ok (rest, a) ∧ f a rest = Except.ok r := by
  unfold pbind at h
  cases hp : p input with
  | ok pr =>
    obtain ⟨rest, a⟩ := pr
    rw [hp] at h
    exact ⟨rest, a, rfl, h⟩
  | error e =>
    rw [hp] at h
    simp at h

theorem pbind_error_inv {α β : Type} {p : Parser α} {f : α → Parser β} {input : List Nat}
    {e : PErr} (h : pbind p f input = Except.error e) :
    p input = Except.error e ∨
      ∃ rest a, p input = Except.ok (rest, a) ∧ f a rest = Except.error e := by
  unfold pbind at h
  cases hp : p input with
  | ok pr =>
    obtain ⟨rest, a⟩ := pr
    rw [hp] at h
    exact Or.inr ⟨rest, a, rfl, h⟩
  | error e2 =>
    rw [hp] at h
    simp at h
    exact Or.inl (by rw [h])

-- Inversion facts for the primitives.

theorem tagP_ok_inv {t input rest v} (h : tagP t input = Except.ok (rest, v)) :
    input.take t.length = t ∧ rest = input.drop t.length := by
  unfold tagP at h
  split_ifs at h with hc
  cases h
  exact ⟨hc, rfl⟩

theorem le_u16_ok_inv {input rest v} (h : le_u16 input = Except.ok (rest, v)) :
    2 ≤ input.length ∧ rest = input.drop 2 := by
  unfold le_u16 at h
  split_ifs at h with hc
  cases h
  exact ⟨hc, rfl⟩

theorem le_u32_ok_inv {input rest v} (h : le_u32 input = Except.ok (rest, v)) :
    4 ≤ input.length ∧ rest = input.drop 4 := by
  unfold le_u32 at h
  split_ifs at h with hc
  cases h
  exact ⟨hc, rfl⟩

theorem le_u64_ok_inv {input rest v} (h : le_u64 input = Except.ok (rest, v)) :
    8 ≤ input.length ∧ rest = input.drop 8 := by
  unfold le_u64 at h
  split_ifs at h with hc
  cases h
  exact ⟨hc, rfl⟩

theorem le_i32_ok_inv {input rest v} (h : le_i32 input = Except.ok (rest, v)) :
    4 ≤ input.length ∧ rest = input.drop 4 := by
  unfold le_i32 at h
  split_ifs at h with hc
  cases h
  exact ⟨hc, rfl⟩

theorem takeP_ok_inv {n input rest v} (h : takeP n input = Except.ok (rest, v)) :
    n ≤ input.length ∧ rest = input.drop n ∧ v = input.take n := by
  unfold takeP at h
  split_ifs at h with hc
  cases h
  exact ⟨hc, rfl, rfl⟩

theorem ppure_ok_inv {α : Type} {a v : α} {input rest : List Nat}
    (h : ppure a input = Except.ok (rest, v)) : rest = input ∧ v = a := by
  unfold ppure at h
  cases h
  exact ⟨rfl, rfl⟩

/-- `p` can only fail with a truncation-style error (Eof or Incomplete),
never with a Tag error. -/
def NoTagFail {α : Type} (p : Parser α) : Prop :=
  ∀ input e, p input = Except.error e → e = PErr.eofErr ∨ e = PErr.incompleteErr

/-- `p` consumes exactly `n` bytes whenever it succeeds. -/
def ConsumesLen {α : Type} (p : Parser α) (n : Nat) : Prop :=
  ∀ input rest a, p input = Except.ok (rest, a) → input.length = n + rest.length

theorem noTagFail_ppure {α : Type} (a : α) : NoTagFail (ppure a) := by
  intro input e h
  simp [ppure] at h

theorem noTagFail_le_u16 : NoTagFail le_u16 := by
  intro input e h
  unfold le_u16 at h
  split_ifs at h
  cases h
  exact Or.inl rfl

theorem noTagFail_le_u32 : NoTagFail le_u32 := by
  intro input e h
  unfold le_u32 at h
  split_ifs at h
  cases h
  exact Or.inl rfl

theorem noTagFail_le_u64 : NoTagFail le_u64 := by
  intro input e h
  unfold le_u64 at h
  split_ifs at h
  cases h
  exact Or.inl rfl

theorem noTagFail_le_i32 : NoTagFail le_i32 := by
  intro input e h
  unfold le_i32 at h
  split_ifs at h
  cases h
  exact Or.inl rfl

theorem noTagFail_takeP (n : Nat) : NoTagFail (takeP n) := by
  intro input e h
  unfold takeP at h
  split_ifs at h
  cases h
  exact Or.inr rfl

theorem noTagFail_pbind {α β : Type} {p : Parser α} {f : α → Parser β}
    (hp : NoTagFail p) (hf : ∀ a, NoTagFail (f a)) : NoTagFail (pbind p f) := by
  intro input e h
  rcases pbind_error_inv h with h1 | ⟨rest, a, _, h2⟩
  · exact hp input e h1
  · exact hf a rest e h2

theorem noTagFail_pcount {α : Type} {p : Parser α} (hp : NoTagFail p) :
    ∀ n, NoTagFail (pcount p n)
  | 0 => noTagFail_ppure []
  | n + 1 =>
    noTagFail_pbind hp fun a =>
      noTagFail_pbind (noTagFail_pcount hp n) fun as => noTagFail_ppure (a :: as)

theorem consumesLen_ppure {α : Type} (a : α) : ConsumesLen (ppure a) 0 := by
  intro input rest b h
  unfold ppure at h
  cases h
  simp

theorem consumesLen_le_u16 : ConsumesLen le_u16 2 := by
  intro input rest a h
  obtain ⟨hc, hr⟩ := le_u16_ok_inv h
  subst hr
  simp
  omega

theorem consumesLen_le_u32 : ConsumesLen le_u32 4 := by
  intro input rest a h
  obtain ⟨hc, hr⟩ := le_u32_ok_inv h
  subst hr
  simp
  omega

theorem consumesLen_le_u64 : ConsumesLen le_u64 8 := by
  intro input rest a h
  obtain ⟨hc, hr⟩ := le_u64_ok_inv h
  subst hr
  simp
  omega

theorem consumesLen_le_i32 : ConsumesLen le_i32 4 := by
  intro input rest a h
  obtain ⟨hc, hr⟩ := le_i32_ok_inv h
  subst hr
  simp
  omega

theorem consumesLen_takeP (n : Nat) : ConsumesLen (takeP n) n := by
  intro input rest a h
  obtain ⟨hc, hr, _⟩ := takeP_ok_inv h
  subst hr
  simp
  omega

theorem consumesLen_tagP (t : List Nat) : ConsumesLen (tagP t) t.length := by
  intro input rest a h
  obtain ⟨hc, hr⟩ := tagP_ok_inv h
  subst hr
  have h2 := congrArg List.length hc
  simp at h2
  simp
  omega

theorem consumesLen_pbind {α β : Type} {p : Parser α} {f : α → Parser β} {n m : Nat}
    (hp : ConsumesLen p n) (hf : ∀ a, ConsumesLen (f a) m) :
    ConsumesLen (pbind p f) (n + m) := by
  intro input rest b h
  obtain ⟨mid, a, h1, h2⟩ := pbind_ok_inv h
  have e1 := hp input mid a h1
  have e2 := hf a mid rest b h2
  omega

theorem consumesLen_of_eq {α : Type} {p : Parser α} {n m : Nat}
    (h : ConsumesLen p n) (e : n = m) : ConsumesLen p m := by
  subst e
  exact h

theorem consumesLen_pcount {α : Type} {p : Parser α} {m : Nat} (hp : ConsumesLen p m) :
    ∀ n, ConsumesLen (pcount p n) (n * m)
  | 0 => consumesLen_of_eq (consumesLen_ppure []) (by ring)
  | n + 1 =>
    consumesLen_of_eq
      (consumesLen_pbind hp fun a =>
        consumesLen_pbind (consumesLen_pcount hp n) fun as => consumesLen_ppure (a :: as))
      (by ring)

-- ## Key security cells (src/cell_key_security.rs)

structure CellKeySecurityDetail where
  unknown1 : Nat
  flink : Nat
  blink : Nat
  reference_count : Nat
  security_descriptor_size : Nat
  deriving DecidableEq

structure CellKeySecurity where
  detail : CellKeySecurityDetail
  size : Nat
  security_descriptor : List Nat
  deriving DecidableEq

/-- Modelled from the spec: `util::parser_eat_remaining` is called by the cell
decoders but util.rs is not among the provided sources.  Per the spec, a
decoder must "eat remaining bytes up to `|size|` after decoding a payload" so
that the caller sees exactly `|size|` bytes consumed; it is modelled as taking
the `cellSize - bytesConsumed` leftover bytes, failing if the cell size is
smaller than what has already been consumed or the input is too short. -/
def parser_eat_remaining (cellSize bytesConsumed : Nat) : Parser (List Nat) :=
  fun input =>
    if bytesConsumed ≤ cellSize then takeP (cellSize - bytesConsumed) input
    else Except.error PErr.eofErr

theorem parser_eat_remaining_ok_inv {cellSize bytesConsumed input rest v}
    (h : parser_eat_remaining cellSize bytesConsumed input = Except.ok (rest, v)) :
    bytesConsumed ≤ cellSize ∧ cellSize - bytesConsumed ≤ input.length ∧
      rest = input.drop (cellSize - bytesConsumed) := by
  unfold parser_eat_remaining at h
  split_ifs at h with hc
  obtain ⟨h1, h2, _⟩ := takeP_ok_inv h
  exact ⟨hc, h1, h2⟩

/-- `CellKeySecurity::from_bytes` (cell_key_security.rs lines 42-70).  The
signature `sk` is bytes [115, 107].  The `bytes_consumed` pointer difference
passed to the eat-remaining step is 4 (size) + 2 (signature) + 2 + 4·4 (the
detail fields) + `security_descriptor_size`. -/
def CellKeySecurity.from_bytes : Parser CellKeySecurity :=
  pbind le_i32 (fun size =>
  pbind (tagP [115, 107]) (fun _ =>
  pbind le_u16 (fun unknown1 =>
  pbind le_u32 (fun flink =>
  pbind le_u32 (fun blink =>
  pbind le_u32 (fun reference_count =>
  pbind le_u32 (fun security_descriptor_size =>
  pbind (takeP security_descriptor_size) (fun security_descriptor =>
  pbind (parser_eat_remaining size.natAbs (24 + security_descriptor_size)) (fun _ =>
  ppure { detail := { unknown1 := unknown1, flink := flink, blink := blink,
                      reference_count := reference_count,
                      security_descriptor_size := security_descriptor_size },
          size := size.natAbs,
          security_descriptor := security_descriptor })))))))))

-- ## lf sub-key lists (src/sub_key_list_lf.rs)

/-- `SubKeyListLfItem` (sub_key_list_lf.rs lines 58-63).  The `name_hint` is
kept as its raw 4 bytes: `util::from_utf8` (not under src/) only re-encodes
them as a `String` for display; this does not affect consumption. -/
structure SubKeyListLfItem where
  named_key_offset_relative : Nat
  name_hint : List Nat
  deriving DecidableEq

structure SubKeyListLf where
  size : Nat
  count : Nat
  items : List SubKeyListLfItem
  deriving DecidableEq

/-- `SubKeyListLfItem::from_bytes` (sub_key_list_lf.rs lines 66-80). -/
def SubKeyListLfItem.from_bytes : Parser SubKeyListLfItem :=
  pbind le_u32 (fun off =>
  pbind (takeP 4) (fun hint =>
  ppure { named_key_offset_relative := off, name_hint := hint }))

/-- `SubKeyListLf::from_bytes_internal` (sub_key_list_lf.rs lines 32-45).  The
signature `lf` is bytes [108, 102].  Note: unlike `CellKeySecurity::from_bytes`
there is no `parser_eat_remaining` tail step here; parsing stops right after
the `count` items. -/
def SubKeyListLf.from_bytes_internal : Parser SubKeyListLf :=
  pbind le_i32 (fun size =>
  pbind (tagP [108, 102]) (fun _ =>
  pbind le_u16 (fun count =>
  pbind (pcount SubKeyListLfItem.from_bytes count) (fun items =>
  ppure { size := size.natAbs, count := count, items := items }))))

theorem subKeyListLfItem_consumes : ConsumesLen SubKeyListLfItem.from_bytes 8 :=
  consumesLen_of_eq
    (consumesLen_pbind consumesLen_le_u32 fun _ =>
      consumesLen_pbind (consumesLen_takeP 4) fun _ => consumesLen_ppure _)
    (by norm_num)

/-- C4 (amended): `CellKeySecurity::from_bytes` consumes exactly `|size|` bytes
of the input (the eat-remaining tail step swallows the trailing padding), but
`SubKeyListLf::from_bytes_internal` has no eat-remaining step and consumes
exactly `8 + 8·count` bytes — the header plus the items — regardless of
`|size|`, leaving any trailing padding unconsumed. -/
theorem claim_C4_amended :
    (∀ input rest cell, CellKeySecurity.from_bytes input = Except.ok (rest, cell) →
      input.length = cell.size + rest.length)
    ∧ (∀ input rest lst, SubKeyListLf.from_bytes_internal input = Except.ok (rest, lst) →
      input.length = (8 + 8 * lst.count) + rest.length) := by
  constructor
  · intro input rest cell h
    unfold CellKeySecurity.from_bytes at h
    obtain ⟨r1, size, h1, h⟩ := pbind_ok_inv h
    obtain ⟨r2, tg, h2, h⟩ := pbind_ok_inv h
    obtain ⟨r3, unknown1, h3, h⟩ := pbind_ok_inv h
    obtain ⟨r4, flink, h4, h⟩ := pbind_ok_inv h
    obtain ⟨r5, blink, h5, h⟩ := pbind_ok_inv h
    obtain ⟨r6, rc, h6, h⟩ := pbind_ok_inv h
    obtain ⟨r7, sdsize, h7, h⟩ := pbind_ok_inv h
    obtain ⟨r8, sd, h8, h⟩ := pbind_ok_inv h
    obtain ⟨r9, pad, h9, h⟩ := pbind_ok_inv h
    obtain ⟨hrest, hcell⟩ := ppure_ok_inv h
    subst hrest
    subst hcell
    have e1 := consumesLen_le_i32 input r1 size h1
    have e2 := consumesLen_tagP [115, 107] r1 r2 tg h2
    have e3 := consumesLen_le_u16 r2 r3 unknown1 h3
    have e4 := consumesLen_le_u32 r3 r4 flink h4
    have e5 := consumesLen_le_u32 r4 r5 blink h5
    have e6 := consumesLen_le_u32 r5 r6 rc h6
    have e7 := consumesLen_le_u32 r6 r7 sdsize h7
    have e8 := consumesLen_takeP sdsize r7 r8 sd h8
    obtain ⟨hle, hlen9, hr9⟩ := parser_eat_remaining_ok_inv h9
    have e9 : r8.length = (Int.natAbs size - (24 + sdsize)) + rest.length := by
      subst hr9
      simp
      omega
    show input.length = size.natAbs + rest.length
    simp at e2
    omega
  · intro input rest lst h
    unfold SubKeyListLf.from_bytes_internal at h
    obtain ⟨r1, size, h1, h⟩ := pbind_ok_inv h
    obtain ⟨r2, tg, h2, h⟩ := pbind_ok_inv h
    obtain ⟨r3, count, h3, h⟩ := pbind_ok_inv h
    obtain ⟨r4, items, h4, h⟩ := pbind_ok_inv h
    obtain ⟨hrest, hlst⟩ := ppure_ok_inv h
    have e1 := consumesLen_le_i32 input r1 size h1
    have e2 := consumesLen_tagP [108, 102] r1 r2 tg h2
    have e3 := consumesLen_le_u16 r2 r3 count h3
    have e4 := consumesLen_pcount subKeyListLfItem_consumes count r3 r4 items h4
    have hcount : lst.count = count := by rw [hlst]
    rw [hcount, hrest]
    simp at e2
    omega

/-- A 32-byte `lf` cell: size field −32, signature `lf`, count 1, one 8-byte
item, then 16 bytes of in-cell padding. -/
def lfPadded : List Nat :=
  [224, 255, 255, 255, 108, 102, 1, 0, 5, 0, 0, 0, 97, 98, 99, 100] ++ List.replicate 16 0

def lfPaddedCell : SubKeyListLf :=
  { size := 32, count := 1,
    items := [{ named_key_offset_relative := 5, name_hint := [97, 98, 99, 100] }] }

/-- C4 counterexample: on the padded `lf` cell above, whose |size| is 32,
`SubKeyListLf::from_bytes_internal` succeeds but consumes only
32 − 16 = 16 bytes — the header and the single item — leaving the 16 padding
bytes unconsumed, so this cell decoder does not consume exactly |size| bytes. -/
theorem claim_C4_counterexample :
    SubKeyListLf.from_bytes_internal lfPadded = Except.ok (List.replicate 16 0, lfPaddedCell)
    ∧ lfPaddedCell.size = 32
    ∧ lfPadded.length - (List.replicate 16 0).length = 16
    ∧ (16 : Nat) ≠ 32 :=
  ⟨rfl, rfl, by decide, by decide⟩

/-- A 32-byte `sk` cell: size field −32, signature `sk`, reference count 1, a
4-byte security descriptor, then 4 bytes of in-cell padding. -/
def skExample : List Nat :=
  [224, 255, 255, 255, 115, 107, 0, 0, 0, 0, 0, 0, 0, 0, 0, 0, 1, 0, 0, 0,
   4, 0, 0, 0, 1, 2, 3, 4, 0, 0, 0, 0]

def skExampleCell : CellKeySecurity :=
  { detail := { unknown1 := 0, flink := 0, blink := 0, reference_count := 1,
                security_descriptor_size := 4 },
    size := 32, security_descriptor := [1, 2, 3, 4] }

/-- Witness for the amended C4 at concrete sk and lf cells. -/
theorem claim_C4_amended_witness :
    skExample.length = skExampleCell.size + ([] : List Nat).length
    ∧ lfPadded.length = (8 + 8 * lfPaddedCell.count) + (List.replicate 16 0).length :=
  ⟨claim_C4_amended.1 skExample [] skExampleCell rfl,
   claim_C4_amended.2 lfPadded (List.replicate 16 0) lfPaddedCell rfl⟩

-- ## Security-descriptor list traversal (src/cell_key_security.rs lines 83-108)

/-- The `Error::Nom` value `read_cell_key_security` returns when a cell fails
to decode (the Rust error also carries a formatted detail string). -/
inductive NotatinErr where
  | nomErr : PErr → NotatinErr
  deriving DecidableEq

/-- The `loop` of `read_cell_key_security`, iterated with an explicit step
budget `fuel`.  `σ` stands for the external
`winstructs::security::SecurityDescriptor` type and `decodeSD` for its
`SecurityDescriptor::from_stream` decoder; both live outside this repository,
so the traversal is parametrised over them.  A result of `none` means the
budget ran out with the loop still running: the Rust function terminates on an
input exactly when some budget yields `some`.  The loop carries only the
current `offset` and the accumulated descriptor vector — there is no
visited-offset set — and on a descriptor decode failure the `Err` arm (lines
95-98) contains only the comment "log error as warning and keep going";
nothing is recorded and iteration proceeds.  (Rust's
`&file_buffer[offset + hbin_offset..]` panics when the index is past the end;
`List.drop` is total, but every input used below stays in bounds.) -/
def readCellKeySecurityLoop {σ : Type} (decodeSD : List Nat → Except Unit σ)
    (file_buffer : List Nat) (security_key_offset hbin_offset : Nat) :
    Nat → Nat → List σ → Option (Except NotatinErr (List σ))
  | 0, _, _ => none
  | fuel + 1, offset, acc =>
    match CellKeySecurity.from_bytes (file_buffer.drop (offset + hbin_offset)) with
    | Except.ok (_, cell_key_security) =>
      let acc2 :=
        match decodeSD cell_key_security.security_descriptor with
        | Except.ok sd => acc ++ [sd]
        | Except.error _ => acc
      if cell_key_security.detail.flink = security_key_offset then
        some (Except.ok acc2)
      else
        readCellKeySecurityLoop decodeSD file_buffer security_key_offset hbin_offset
          fuel cell_key_security.detail.flink acc2
    | Except.error e => some (Except.error (NotatinErr.nomErr e))

/-- `read_cell_key_security` (cell_key_security.rs lines 83-108), with a step
budget: the loop starts at `security_key_offset` with an empty vector. -/
def read_cell_key_security {σ : Type} (decodeSD : List Nat → Except Unit σ)
    (file_buffer : List Nat) (security_key_offset hbin_offset : Nat) (fuel : Nat) :
    Option (Except NotatinErr (List σ)) :=
  readCellKeySecurityLoop decodeSD file_buffer security_key_offset hbin_offset
    fuel security_key_offset []

theorem readCellKeySecurityLoop_step {σ : Type} (decodeSD : List Nat → Except Unit σ)
    (file_buffer : List Nat) (security_key_offset hbin_offset fuel offset : Nat)
    (acc : List σ) (rest : List Nat) (cell : CellKeySecurity)
    (hparse : CellKeySecurity.from_bytes (file_buffer.drop (offset + hbin_offset)) =
      Except.ok (rest, cell))
    (hne : cell.detail.flink ≠ security_key_offset) :
    readCellKeySecurityLoop decodeSD file_buffer security_key_offset hbin_offset
        (fuel + 1) offset acc =
      readCellKeySecurityLoop decodeSD file_buffer security_key_offset hbin_offset
        fuel cell.detail.flink
        (match decodeSD cell.security_descriptor with
         | Except.ok sd => acc ++ [sd]
         | Except.error _ => acc) := by
  rw [readCellKeySecurityLoop, hparse]
  simp only []
  rw [if_neg hne]

/-- The 96-byte buffer with two `sk` cells: cell A at offset 0 with
`flink = 64`, and cell B at offset 64 with `flink = 64` — B's forward link
points back to B itself, a cycle that never returns to the starting offset. -/
def cycBuffer : List Nat :=
  [224, 255, 255, 255, 115, 107, 0, 0, 64, 0, 0, 0, 0, 0, 0, 0, 1, 0, 0, 0, 0, 0, 0, 0]
  ++ List.replicate 40 0
  ++ [224, 255, 255, 255, 115, 107, 0, 0, 64, 0, 0, 0, 0, 0, 0, 0, 1, 0, 0, 0, 0, 0, 0, 0]
  ++ List.replicate 8 0

/-- Cell A of `cycBuffer` (also the shape of cell B): size 32, flink 64,
empty security descriptor. -/
def cycCell : CellKeySecurity :=
  { detail := { unknown1 := 0, flink := 64, blink := 0, reference_count := 1,
                security_descriptor_size := 0 },
    size := 32, security_descriptor := [] }

theorem readCellKeySecurityLoop_cyc_stuck {σ : Type} (decodeSD : List Nat → Except Unit σ) :
    ∀ (fuel : Nat) (acc : List σ),
      readCellKeySecurityLoop decodeSD cycBuffer 0 0 fuel 64 acc = none
  | 0, acc => rfl
  | fuel + 1, acc => by
    have hB : CellKeySecurity.from_bytes (cycBuffer.drop (64 + 0)) =
        Except.ok (([] : List Nat), cycCell) := rfl
    rw [readCellKeySecurityLoop_step decodeSD cycBuffer 0 0 fuel 64 acc [] cycCell hB
      (by decide)]
    exact readCellKeySecurityLoop_cyc_stuck decodeSD fuel _

/-- C6: `read_cell_key_security` does not detect flink cycles — there is no
visited-offset set in the loop, which only stops when a cell's `flink` equals
the starting `security_key_offset`.  On `cycBuffer` (whose cell at offset 64
links to itself, never back to the start offset 0), the traversal runs forever:
for every step budget, and whatever the external security-descriptor decoder
does, the loop is still running when the budget is exhausted. -/
theorem claim_C6_no_cycle_detection (σ : Type) (decodeSD : List Nat → Except Unit σ)
    (fuel : Nat) :
    read_cell_key_security decodeSD cycBuffer 0 0 fuel = none := by
  cases fuel with
  | zero => rfl
  | succ fuel =>
    unfold read_cell_key_security
    have hA : CellKeySecurity.from_bytes (cycBuffer.drop (0 + 0)) =
        Except.ok (cycBuffer.drop 32, cycCell) := rfl
    rw [readCellKeySecurityLoop_step decodeSD cycBuffer 0 0 fuel 0 []
      (cycBuffer.drop 32) cycCell hA (by decide)]
    exact readCellKeySecurityLoop_cyc_stuck decodeSD fuel _

/-- A 96-byte buffer with two `sk` cells: cell A at offset 0
(`flink = 64`, 4-byte descriptor blob [9, 9, 9, 9]) and cell B at offset 64
(`flink = 0`, i.e. back to the list head, 4-byte descriptor blob
[7, 7, 7, 7]). -/
def twoSkBuffer : List Nat :=
  [224, 255, 255, 255, 115, 107, 0, 0, 64, 0, 0, 0, 0, 0, 0, 0, 1, 0, 0, 0, 4, 0, 0, 0,
   9, 9, 9, 9, 0, 0, 0, 0]
  ++ List.replicate 32 0
  ++ [224, 255, 255, 255, 115, 107, 0, 0, 0, 0, 0, 0, 0, 0, 0, 0, 1, 0, 0, 0, 4, 0, 0, 0,
      7, 7, 7, 7, 0, 0, 0, 0]

/-- A security-descriptor decoder (standing in for the external
`SecurityDescriptor::from_stream`) that rejects cell A's blob [9, 9, 9, 9] and
accepts cell B's blob [7, 7, 7, 7], decoding it to the token 0. -/
def rejectNinesDecoder : List Nat → Except Unit Nat := fun bytes =>
  if bytes = [7, 7, 7, 7] then Except.ok 0 else Except.error ()

/-- C7: when a security-descriptor blob fails to decode,
`read_cell_key_security` skips that descriptor, continues to the next list
entry via `flink`, and still returns `Ok` with the successfully decoded
descriptors.  On `twoSkBuffer` with `rejectNinesDecoder`, cell A's blob fails
to decode, yet the traversal reaches cell B and returns `Ok` carrying exactly
B's descriptor.  (The claim's remaining part — that the failure is recorded as
a warning — has no counterpart in the code: the `Err` arm holds only the
comment "log error as warning and keep going", the function has no warning
sink, and its `Result` carries none.) -/
theorem claim_C7_decode_failure_skipped :
    rejectNinesDecoder [9, 9, 9, 9] = Except.error ()
    ∧ rejectNinesDecoder [7, 7, 7, 7] = Except.ok 0
    ∧ read_cell_key_security rejectNinesDecoder twoSkBuffer 0 0 2 =
        some (Except.ok [0]) :=
  ⟨rfl, rfl, rfl⟩

-- ## Header enums and logs (src/base_block.rs, src/reg_header.rs, src/macros.rs)

/-- Modelled from the spec: the shared warning log (log.rs is not under src/).
Section 4.9: "an ordered list of {code, text} entries"; `Logs::add` appends one
entry.  Only the code is modelled, the formatted text is dropped. -/
inductive LogCode where
  | warningConversion
  deriving DecidableEq

/-- `FileType` of reg_header.rs (lines 18-26). -/
inductive FileTypeR where
  | primary
  | transactionLog
  | transactionLogNewFormat
  | unknown
  deriving DecidableEq

/-- The `Primitive`-derived `FileType::from_u32` of reg_header.rs: exact match
on the `#[repr(u32)]` discriminants 0, 1, 6, 0x0fffffff. -/
def FileTypeR.from_u32 (v : Nat) : Option FileTypeR :=
  if v = 0 then some FileTypeR.primary
  else if v = 1 then some FileTypeR.transactionLog
  else if v = 6 then some FileTypeR.transactionLogNewFormat
  else if v = 0x0fffffff then some FileTypeR.unknown
  else none

/-- The `#[repr(u32)]` discriminant of each reg_header.rs `FileType` variant. -/
def FileTypeR.val : FileTypeR → Nat
  | FileTypeR.primary => 0
  | FileTypeR.transactionLog => 1
  | FileTypeR.transactionLogNewFormat => 6
  | FileTypeR.unknown => 0x0fffffff

/-- `impl_enum_from_value!{FileType}` (macros.rs lines 39-51): unrecognized
values map to `Unknown` and append a `WarningConversion` entry to the logs. -/
def FileTypeR.from_value (v : Nat) (logs : List LogCode) : FileTypeR × List LogCode :=
  match FileTypeR.from_u32 v with
  | some t => (t, logs)
  | none => (FileTypeR.unknown, logs ++ [LogCode.warningConversion])

/-- `FileFormat` of reg_header.rs (lines 28-34). -/
inductive FileFormatR where
  | directMemoryLoad
  | unknown
  deriving DecidableEq

def FileFormatR.from_u32 (v : Nat) : Option FileFormatR :=
  if v = 1 then some FileFormatR.directMemoryLoad
  else if v = 0x0fffffff then some FileFormatR.unknown
  else none

def FileFormatR.val : FileFormatR → Nat
  | FileFormatR.directMemoryLoad => 1
  | FileFormatR.unknown => 0x0fffffff

/-- `impl_enum_from_value!{FileFormat}` (macros.rs lines 39-51). -/
def FileFormatR.from_value (v : Nat) (logs : List LogCode) : FileFormatR × List LogCode :=
  match FileFormatR.from_u32 v with
  | some f => (f, logs)
  | none => (FileFormatR.unknown, logs ++ [LogCode.warningConversion])

/-- `FileBaseBlockReservedFlags` (reg_header.rs lines 227-237). -/
inductive ReservedFlagsR where
  | flagsNone
  | ktmLockedHive
  | ktm2
  | unknown
  deriving DecidableEq

def ReservedFlagsR.from_u32 (v : Nat) : Option ReservedFlagsR :=
  if v = 0 then some ReservedFlagsR.flagsNone
  else if v = 1 then some ReservedFlagsR.ktmLockedHive
  else if v = 2 then some ReservedFlagsR.ktm2
  else if v = 0x0fffffff then some ReservedFlagsR.unknown
  else none

/-- `impl_enum_from_value!{FileBaseBlockReservedFlags}` (macros.rs). -/
def ReservedFlagsR.from_value (v : Nat) (logs : List LogCode) :
    ReservedFlagsR × List LogCode :=
  match ReservedFlagsR.from_u32 v with
  | some f => (f, logs)
  | none => (ReservedFlagsR.unknown, logs ++ [LogCode.warningConversion])

/-- `FileType` of base_block.rs (lines 17-23).  There is no variant for the
value 6 here, and the `Unknown` fallback carries a `// todo: log warning`
comment. -/
inductive FileTypeB where
  | normal
  | transactionLog
  | unknown
  deriving DecidableEq

def FileTypeB.from_u32 (v : Nat) : Option FileTypeB :=
  if v = 0 then some FileTypeB.normal
  else if v = 1 then some FileTypeB.transactionLog
  else if v = 0x0fffffff then some FileTypeB.unknown
  else none

def FileTypeB.val : FileTypeB → Nat
  | FileTypeB.normal => 0
  | FileTypeB.transactionLog => 1
  | FileTypeB.unknown => 0x0fffffff

/-- `FileFormat` of base_block.rs (lines 25-30). -/
inductive FileFormatB where
  | directMemoryLoad
  | unknown
  deriving DecidableEq

def FileFormatB.from_u32 (v : Nat) : Option FileFormatB :=
  if v = 1 then some FileFormatB.directMemoryLoad
  else if v = 0x0fffffff then some FileFormatB.unknown
  else none

def FileFormatB.val : FileFormatB → Nat
  | FileFormatB.directMemoryLoad => 1
  | FileFormatB.unknown => 0x0fffffff

-- ## Modelled util helpers (util.rs is not under src/)

/-- Modelled from the spec: `util::get_date_time_from_filetime`.  FILETIME is
"100-nanosecond ticks since 1601-01-01 UTC" (glossary); the conversion to a
date-time is injective in the tick count, so the date-time is represented by
the raw 64-bit value itself.  (base_block.rs unwraps an Option here; the spec
gives no failure condition, so the conversion is modelled as total.) -/
def get_date_time_from_filetime (v : Nat) : Nat := v

/-- The little-endian 16-bit code units of a byte string. -/
def u16Units : List Nat → List Nat
  | a :: b :: rest => (a + 256 * b) :: u16Units rest
  | _ => []

/-- Modelled from the spec: the 64-byte UTF-16LE filename decode
(`util::read_utf16_le_string` in base_block.rs, `util::from_utf16_le_string`
in reg_header.rs; util.rs is not under src/).  Section 4.2 describes one
"64-character UTF-16LE filename" field for both headers, so both are modelled
by the same function: the little-endian code units up to the first NUL. -/
def read_utf16_le_string (bytes : List Nat) : List Nat :=
  (u16Units bytes).takeWhile (fun u => u != 0)

-- ## `FileBaseBlock::from_bytes` (src/base_block.rs lines 56-108)

/-- `FileBaseBlock` (base_block.rs lines 32-52), with raw-valued fields: the
modification time is the FILETIME tick count and the filename its decoded
code units (see the modelled util helpers). -/
structure FileBaseBlock where
  primary_sequence_number : Nat
  secondary_sequence_number : Nat
  last_modification_date_and_time : Nat
  major_version : Nat
  minor_version : Nat
  file_type : FileTypeB
  format : FileFormatB
  root_cell_offset : Int
  hive_bins_data_size : Nat
  clustering_factor : Nat
  filename : List Nat
  unk2 : List Nat
  checksum : Nat
  reserved : List Nat
  boot_type : Nat
  boot_recover : Nat
  deriving DecidableEq

/-- `FileBaseBlock::from_bytes` (base_block.rs lines 56-108).  The signature
`regf` is bytes [114, 101, 103, 102].  Unrecognized file-type/format values
fall back to `Unknown` through a plain `match` on `from_u32`; nothing is
logged. -/
def FileBaseBlock.from_bytes : Parser FileBaseBlock :=
  pbind (tagP [114, 101, 103, 102]) (fun _ =>
  pbind le_u32 (fun primary_sequence_number =>
  pbind le_u32 (fun secondary_sequence_number =>
  pbind le_u64 (fun last_modification_date_and_time =>
  pbind le_u32 (fun major_version =>
  pbind le_u32 (fun minor_version =>
  pbind le_u32 (fun file_type_bytes =>
  pbind le_u32 (fun format_bytes =>
  pbind le_i32 (fun root_cell_offset =>
  pbind le_u32 (fun hive_bins_data_size =>
  pbind le_u32 (fun clustering_factor =>
  pbind (takeP 64) (fun filename_bytes =>
  pbind (takeP 396) (fun unk2 =>
  pbind le_u32 (fun checksum =>
  pbind (takeP 3576) (fun reserved =>
  pbind le_u32 (fun boot_type =>
  pbind le_u32 (fun boot_recover =>
  ppure
    { primary_sequence_number := primary_sequence_number,
      secondary_sequence_number := secondary_sequence_number,
      last_modification_date_and_time :=
        get_date_time_from_filetime last_modification_date_and_time,
      major_version := major_version,
      minor_version := minor_version,
      file_type :=
        match FileTypeB.from_u32 file_type_bytes with
        | some file_type => file_type
        | none => FileTypeB.unknown,
      format :=
        match FileFormatB.from_u32 format_bytes with
        | some format => format
        | none => FileFormatB.unknown,
      root_cell_offset := root_cell_offset,
      hive_bins_data_size := hive_bins_data_size,
      clustering_factor := clustering_factor,
      filename := read_utf16_le_string filename_bytes,
      unk2 := unk2,
      checksum := checksum,
      reserved := reserved,
      boot_type := boot_type,
      boot_recover := boot_recover })))))))))))))))))

-- ## `RegHeader::from_bytes` (src/reg_header.rs lines 44-55, 88-124, 153-168)

/-- `RegHeaderBase` (reg_header.rs lines 62-84), with raw-valued fields as in
`FileBaseBlock`, plus the warning log threaded through the enum conversions. -/
structure RegHeaderBase where
  primary_sequence_number : Nat
  secondary_sequence_number : Nat
  last_modification_date_and_time : Nat
  major_version : Nat
  minor_version : Nat
  file_type : FileTypeR
  format : FileFormatR
  root_cell_offset_relative : Int
  hive_bins_data_size : Nat
  clustering_factor : Nat
  filename : List Nat
  unk2 : List Nat
  checksum : Nat
  logs : List LogCode
  deriving DecidableEq

/-- `RegHeaderBase::from_bytes` (reg_header.rs lines 88-124): the same
512-byte layout as the front of `FileBaseBlock`, but enum conversion goes
through `from_value`, which appends a warning on unrecognized values.  The
struct literal evaluates `file_type` first, then `format`, each threading the
same logs; the filename decode's lossy-character logging lives in external
util code and is modelled as silent. -/
def RegHeaderBase.from_bytes : Parser RegHeaderBase :=
  pbind (tagP [114, 101, 103, 102]) (fun _ =>
  pbind le_u32 (fun primary_sequence_number =>
  pbind le_u32 (fun secondary_sequence_number =>
  pbind le_u64 (fun last_modification_date_and_time =>
  pbind le_u32 (fun major_version =>
  pbind le_u32 (fun minor_version =>
  pbind le_u32 (fun file_type_bytes =>
  pbind le_u32 (fun format_bytes =>
  pbind le_i32 (fun root_cell_offset_relative =>
  pbind le_u32 (fun hive_bins_data_size =>
  pbind le_u32 (fun clustering_factor =>
  pbind (takeP 64) (fun filename_bytes =>
  pbind (takeP 396) (fun unk2 =>
  pbind le_u32 (fun checksum =>
  ppure
    (let ft := FileTypeR.from_value file_type_bytes []
     let fmt := FileFormatR.from_value format_bytes ft.2
     { primary_sequence_number := primary_sequence_number,
       secondary_sequence_number := secondary_sequence_number,
       last_modification_date_and_time :=
         get_date_time_from_filetime last_modification_date_and_time,
       major_version := major_version,
       minor_version := minor_version,
       file_type := ft.1,
       format := fmt.1,
       root_cell_offset_relative := root_cell_offset_relative,
       hive_bins_data_size := hive_bins_data_size,
       clustering_factor := clustering_factor,
       filename := read_utf16_le_string filename_bytes,
       unk2 := unk2,
       checksum := checksum,
       logs := fmt.2 })))))))))))))))

/-- `FileBaseBlockReserved` of reg_header.rs (lines 172-225): the GUIDs are
kept as their raw 16-byte lists (`util::get_guid_from_buffer` is external util
code whose byte-to-GUID packing is injective), the flags go through
`from_value`. -/
structure FileBaseBlockReserved where
  rm_id : List Nat
  log_id : List Nat
  flags : ReservedFlagsR
  tm_id : List Nat
  signatureField : Nat
  last_reorganized_timestamp : Nat
  remaining : List Nat
  logs : List LogCode
  deriving DecidableEq

/-- `FileBaseBlockReserved::from_bytes` (reg_header.rs lines 201-224). -/
def FileBaseBlockReserved.from_bytes : Parser FileBaseBlockReserved :=
  pbind (takeP 16) (fun rm_id =>
  pbind (takeP 16) (fun log_id =>
  pbind le_u32 (fun flags =>
  pbind (takeP 16) (fun tm_id =>
  pbind le_u32 (fun signatureField =>
  pbind le_u64 (fun last_reorganized_timestamp =>
  pbind (takeP 3512) (fun remaining =>
  ppure
    (let fl := ReservedFlagsR.from_value flags []
     { rm_id := rm_id, log_id := log_id, flags := fl.1, tm_id := tm_id,
       signatureField := signatureField,
       last_reorganized_timestamp :=
         get_date_time_from_filetime last_reorganized_timestamp,
       remaining := remaining, logs := fl.2 }))))))))

/-- `RegHeaderExtended` (reg_header.rs lines 147-151). -/
structure RegHeaderExtended where
  reserved : FileBaseBlockReserved
  boot_type : Nat
  boot_recover : Nat
  deriving DecidableEq

/-- `RegHeaderExtended::from_bytes` (reg_header.rs lines 155-168). -/
def RegHeaderExtended.from_bytes : Parser RegHeaderExtended :=
  pbind FileBaseBlockReserved.from_bytes (fun reserved =>
  pbind le_u32 (fun boot_type =>
  pbind le_u32 (fun boot_recover =>
  ppure { reserved := reserved, boot_type := boot_type, boot_recover := boot_recover })))

/-- `RegHeader` (reg_header.rs lines 36-40). -/
structure RegHeader where
  base : RegHeaderBase
  ext : RegHeaderExtended
  deriving DecidableEq

/-- `RegHeader::from_bytes` (reg_header.rs lines 44-55). -/
def RegHeader.from_bytes : Parser RegHeader :=
  pbind RegHeaderBase.from_bytes (fun base =>
  pbind RegHeaderExtended.from_bytes (fun ext =>
  ppure { base := base, ext := ext }))

-- Forward ("success") forms of the primitives, positioned at an absolute
-- offset `k` into the original input, for assembling whole-header parses.

theorem pbind_ok_all {α β : Type} {p : Parser α} {input rest : List Nat} {a : α}
    (h : p input = Except.ok (rest, a)) (f : α → Parser β) :
    pbind p f input = f a rest := by
  unfold pbind
  rw [h]

theorem tagP_ok_of {t input : List Nat} (h : input.take t.length = t) :
    tagP t input = Except.ok (input.drop t.length, t) := by
  unfold tagP
  rw [if_pos h]

theorem le_u16_at (input : List Nat) (k k2 : Nat) (hk : k + 2 = k2)
    (h : k2 ≤ input.length) :
    le_u16 (input.drop k) = Except.ok (input.drop k2, leVal ((input.drop k).take 2)) := by
  unfold le_u16
  rw [if_pos (by simp; omega)]
  rw [List.drop_drop, hk]

theorem le_u32_at (input : List Nat) (k k2 : Nat) (hk : k + 4 = k2)
    (h : k2 ≤ input.length) :
    le_u32 (input.drop k) = Except.ok (input.drop k2, leVal ((input.drop k).take 4)) := by
  unfold le_u32
  rw [if_pos (by simp; omega)]
  rw [List.drop_drop, hk]

theorem le_u64_at (input : List Nat) (k k2 : Nat) (hk : k + 8 = k2)
    (h : k2 ≤ input.length) :
    le_u64 (input.drop k) = Except.ok (input.drop k2, leVal ((input.drop k).take 8)) := by
  unfold le_u64
  rw [if_pos (by simp; omega)]
  rw [List.drop_drop, hk]

theorem le_i32_at (input : List Nat) (k k2 : Nat) (hk : k + 4 = k2)
    (h : k2 ≤ input.length) :
    le_i32 (input.drop k) =
      Except.ok (input.drop k2, i32OfLe (leVal ((input.drop k).take 4))) := by
  unfold le_i32
  rw [if_pos (by simp; omega)]
  rw [List.drop_drop, hk]

theorem takeP_at (input : List Nat) (n k k2 : Nat) (hk : k + n = k2)
    (h : k2 ≤ input.length) :
    takeP n (input.drop k) = Except.ok (input.drop k2, (input.drop k).take n) := by
  unfold takeP
  rw [if_pos (by simp; omega)]
  rw [List.drop_drop, hk]

/-- Success normal form of `FileBaseBlock::from_bytes`: with the `regf` magic
present and at least 4096 bytes of input, the parse succeeds, consumes exactly
4096 bytes, and every field is read from its fixed offset. -/
theorem fileBaseBlock_ok (input : List Nat)
    (hm : input.take 4 = [114, 101, 103, 102]) (hl : 4096 ≤ input.length) :
    FileBaseBlock.from_bytes input = Except.ok (input.drop 4096,
      { primary_sequence_number := leVal ((input.drop 4).take 4),
        secondary_sequence_number := leVal ((input.drop 8).take 4),
        last_modification_date_and_time :=
          get_date_time_from_filetime (leVal ((input.drop 12).take 8)),
        major_version := leVal ((input.drop 20).take 4),
        minor_version := leVal ((input.drop 24).take 4),
        file_type :=
          match FileTypeB.from_u32 (leVal ((input.drop 28).take 4)) with
          | some file_type => file_type
          | none => FileTypeB.unknown,
        format :=
          match FileFormatB.from_u32 (leVal ((input.drop 32).take 4)) with
          | some format => format
          | none => FileFormatB.unknown,
        root_cell_offset := i32OfLe (leVal ((input.drop 36).take 4)),
        hive_bins_data_size := leVal ((input.drop 40).take 4),
        clustering_factor := leVal ((input.drop 44).take 4),
        filename := read_utf16_le_string ((input.drop 48).take 64),
        unk2 := (input.drop 112).take 396,
        checksum := leVal ((input.drop 508).take 4),
        reserved := (input.drop 512).take 3576,
        boot_type := leVal ((input.drop 4088).take 4),
        boot_recover := leVal ((input.drop 4092).take 4) }) := by
  have s1 : tagP [114, 101, 103, 102] input =
      Except.ok (input.drop 4, [114, 101, 103, 102]) := tagP_ok_of hm
  have s2 := le_u32_at input 4 8 rfl (by omega)
  have s3 := le_u32_at input 8 12 rfl (by omega)
  have s4 := le_u64_at input 12 20 rfl (by omega)
  have s5 := le_u32_at input 20 24 rfl (by omega)
  have s6 := le_u32_at input 24 28 rfl (by omega)
  have s7 := le_u32_at input 28 32 rfl (by omega)
  have s8 := le_u32_at input 32 36 rfl (by omega)
  have s9 := le_i32_at input 36 40 rfl (by omega)
  have s10 := le_u32_at input 40 44 rfl (by omega)
  have s11 := le_u32_at input 44 48 rfl (by omega)
  have s12 := takeP_at input 64 48 112 rfl (by omega)
  have s13 := takeP_at input 396 112 508 rfl (by omega)
  have s14 := le_u32_at input 508 512 rfl (by omega)
  have s15 := takeP_at input 3576 512 4088 rfl (by omega)
  have s16 := le_u32_at input 4088 4092 rfl (by omega)
  have s17 := le_u32_at input 4092 4096 rfl (by omega)
  unfold FileBaseBlock.from_bytes
  simp only [pbind_ok_all s1, pbind_ok_all s2, pbind_ok_all s3, pbind_ok_all s4,
    pbind_ok_all s5, pbind_ok_all s6, pbind_ok_all s7, pbind_ok_all s8,
    pbind_ok_all s9, pbind_ok_all s10, pbind_ok_all s11, pbind_ok_all s12,
    pbind_ok_all s13, pbind_ok_all s14, pbind_ok_all s15, pbind_ok_all s16,
    pbind_ok_all s17, ppure]

/-- Success normal form of `RegHeaderBase::from_bytes`: same fixed 512-byte
layout as the front of `FileBaseBlock::from_bytes`, with the warning log
produced by the two `from_value` conversions. -/
theorem regHeaderBase_ok (input : List Nat)
    (hm : input.take 4 = [114, 101, 103, 102]) (hl : 512 ≤ input.length) :
    RegHeaderBase.from_bytes input = Except.ok (input.drop 512,
      { primary_sequence_number := leVal ((input.drop 4).take 4),
        secondary_sequence_number := leVal ((input.drop 8).take 4),
        last_modification_date_and_time :=
          get_date_time_from_filetime (leVal ((input.drop 12).take 8)),
        major_version := leVal ((input.drop 20).take 4),
        minor_version := leVal ((input.drop 24).take 4),
        file_type := (FileTypeR.from_value (leVal ((input.drop 28).take 4)) []).1,
        format :=
          (FileFormatR.from_value (leVal ((input.drop 32).take 4))
            (FileTypeR.from_value (leVal ((input.drop 28).take 4)) []).2).1,
        root_cell_offset_relative := i32OfLe (leVal ((input.drop 36).take 4)),
        hive_bins_data_size := leVal ((input.drop 40).take 4),
        clustering_factor := leVal ((input.drop 44).take 4),
        filename := read_utf16_le_string ((input.drop 48).take 64),
        unk2 := (input.drop 112).take 396,
        checksum := leVal ((input.drop 508).take 4),
        logs :=
          (FileFormatR.from_value (leVal ((input.drop 32).take 4))
            (FileTypeR.from_value (leVal ((input.drop 28).take 4)) []).2).2 }) := by
  have s1 : tagP [114, 101, 103, 102] input =
      Except.ok (input.drop 4, [114, 101, 103, 102]) := tagP_ok_of hm
  have s2 := le_u32_at input 4 8 rfl (by omega)
  have s3 := le_u32_at input 8 12 rfl (by omega)
  have s4 := le_u64_at input 12 20 rfl (by omega)
  have s5 := le_u32_at input 20 24 rfl (by omega)
  have s6 := le_u32_at input 24 28 rfl (by omega)
  have s7 := le_u32_at input 28 32 rfl (by omega)
  have s8 := le_u32_at input 32 36 rfl (by omega)
  have s9 := le_i32_at input 36 40 rfl (by omega)
  have s10 := le_u32_at input 40 44 rfl (by omega)
  have s11 := le_u32_at input 44 48 rfl (by omega)
  have s12 := takeP_at input 64 48 112 rfl (by omega)
  have s13 := takeP_at input 396 112 508 rfl (by omega)
  have s14 := le_u32_at input 508 512 rfl (by omega)
  unfold RegHeaderBase.from_bytes
  simp only [pbind_ok_all s1, pbind_ok_all s2, pbind_ok_all s3, pbind_ok_all s4,
    pbind_ok_all s5, pbind_ok_all s6, pbind_ok_all s7, pbind_ok_all s8,
    pbind_ok_all s9, pbind_ok_all s10, pbind_ok_all s11, pbind_ok_all s12,
    pbind_ok_all s13, pbind_ok_all s14, ppure]

/-- Success normal form of `FileBaseBlockReserved::from_bytes`: fixed
3576-byte layout. -/
theorem reservedBlock_ok (input : List Nat)
    (hl : 3576 ≤ input.length) :
    FileBaseBlockReserved.from_bytes input = Except.ok (input.drop 3576,
      { rm_id := input.take 16,
        log_id := (input.drop 16).take 16,
        flags := (ReservedFlagsR.from_value (leVal ((input.drop 32).take 4)) []).1,
        tm_id := (input.drop 36).take 16,
        signatureField := leVal ((input.drop 52).take 4),
        last_reorganized_timestamp :=
          get_date_time_from_filetime (leVal ((input.drop 56).take 8)),
        remaining := (input.drop 64).take 3512,
        logs := (ReservedFlagsR.from_value (leVal ((input.drop 32).take 4)) []).2 }) := by
  have s1 : takeP 16 input = Except.ok (input.drop 16, input.take 16) := by
    unfold takeP
    rw [if_pos (by omega)]
  have s2 := takeP_at input 16 16 32 rfl (by omega)
  have s3 := le_u32_at input 32 36 rfl (by omega)
  have s4 := takeP_at input 16 36 52 rfl (by omega)
  have s5 := le_u32_at input 52 56 rfl (by omega)
  have s6 := le_u64_at input 56 64 rfl (by omega)
  have s7 := takeP_at input 3512 64 3576 rfl (by omega)
  unfold FileBaseBlockReserved.from_bytes
  simp only [pbind_ok_all s1, pbind_ok_all s2, pbind_ok_all s3, pbind_ok_all s4,
    pbind_ok_all s5, pbind_ok_all s6, pbind_ok_all s7, ppure]

/-- Success normal form of `RegHeaderExtended::from_bytes`: the reserved block
followed by the two boot fields, 3584 bytes in all. -/
theorem regHeaderExtended_ok (input : List Nat)
    (hl : 3584 ≤ input.length) :
    RegHeaderExtended.from_bytes input = Except.ok (input.drop 3584,
      { reserved :=
          { rm_id := input.take 16,
            log_id := (input.drop 16).take 16,
            flags := (ReservedFlagsR.from_value (leVal ((input.drop 32).take 4)) []).1,
            tm_id := (input.drop 36).take 16,
            signatureField := leVal ((input.drop 52).take 4),
            last_reorganized_timestamp :=
              get_date_time_from_filetime (leVal ((input.drop 56).take 8)),
            remaining := (input.drop 64).take 3512,
            logs := (ReservedFlagsR.from_value (leVal ((input.drop 32).take 4)) []).2 },
        boot_type := leVal ((input.drop 3576).take 4),
        boot_recover := leVal ((input.drop 3580).take 4) }) := by
  have s1 := reservedBlock_ok input (by omega)
  have s2 := le_u32_at input 3576 3580 rfl (by omega)
  have s3 := le_u32_at input 3580 3584 rfl (by omega)
  unfold RegHeaderExtended.from_bytes
  simp only [pbind_ok_all s1, pbind_ok_all s2, pbind_ok_all s3, ppure]

/-- Success normal form of `RegHeader::from_bytes`: the 512-byte base followed
by the 3584-byte extended part — 4096 bytes in all, with every field at the
same absolute offset as in `FileBaseBlock::from_bytes` where the two share a
field. -/
theorem regHeader_ok (input : List Nat)
    (hm : input.take 4 = [114, 101, 103, 102]) (hl : 4096 ≤ input.length) :
    RegHeader.from_bytes input = Except.ok (input.drop 4096,
      { base :=
          { primary_sequence_number := leVal ((input.drop 4).take 4),
            secondary_sequence_number := leVal ((input.drop 8).take 4),
            last_modification_date_and_time :=
              get_date_time_from_filetime (leVal ((input.drop 12).take 8)),
            major_version := leVal ((input.drop 20).take 4),
            minor_version := leVal ((input.drop 24).take 4),
            file_type := (FileTypeR.from_value (leVal ((input.drop 28).take 4)) []).1,
            format :=
              (FileFormatR.from_value (leVal ((input.drop 32).take 4))
                (FileTypeR.from_value (leVal ((input.drop 28).take 4)) []).2).1,
            root_cell_offset_relative := i32OfLe (leVal ((input.drop 36).take 4)),
            hive_bins_data_size := leVal ((input.drop 40).take 4),
            clustering_factor := leVal ((input.drop 44).take 4),
            filename := read_utf16_le_string ((input.drop 48).take 64),
            unk2 := (input.drop 112).take 396,
            checksum := leVal ((input.drop 508).take 4),
            logs :=
              (FileFormatR.from_value (leVal ((input.drop 32).take 4))
                (FileTypeR.from_value (leVal ((input.drop 28).take 4)) []).2).2 },
        ext :=
          { reserved :=
              { rm_id := (input.drop 512).take 16,
                log_id := (input.drop 528).take 16,
                flags :=
                  (ReservedFlagsR.from_value (leVal ((input.drop 544).take 4)) []).1,
                tm_id := (input.drop 548).take 16,
                signatureField := leVal ((input.drop 564).take 4),
                last_reorganized_timestamp :=
                  get_date_time_from_filetime (leVal ((input.drop 568).take 8)),
                remaining := (input.drop 576).take 3512,
                logs :=
                  (ReservedFlagsR.from_value (leVal ((input.drop 544).take 4)) []).2 },
            boot_type := leVal ((input.drop 4088).take 4),
            boot_recover := leVal ((input.drop 4092).take 4) } }) := by
  have s1 := regHeaderBase_ok input hm (by omega)
  have s2 := regHeaderExtended_ok (input.drop 512) (by simp; omega)
  unfold RegHeader.from_bytes
  simp only [pbind_ok_all s1, pbind_ok_all s2, ppure]
  simp [List.drop_drop]

theorem tagP_err_of {t input : List Nat} (h : input.take t.length ≠ t) :
    tagP t input = Except.error PErr.tagErr := by
  unfold tagP
  rw [if_neg h]

theorem pbind_error_of {α β : Type} {p : Parser α} {f : α → Parser β} {input : List Nat}
    {e : PErr} (h : p input = Except.error e) : pbind p f input = Except.error e := by
  unfold pbind
  rw [h]

/-- With a wrong magic, `FileBaseBlock::from_bytes` fails with the Tag error. -/
theorem fileBaseBlock_err_magic {input : List Nat}
    (hm : input.take 4 ≠ [114, 101, 103, 102]) :
    FileBaseBlock.from_bytes input = Except.error PErr.tagErr := by
  unfold FileBaseBlock.from_bytes
  exact pbind_error_of (tagP_err_of hm)

/-- With a wrong magic, `RegHeaderBase::from_bytes` fails with the Tag error. -/
theorem regHeaderBase_err_magic {input : List Nat}
    (hm : input.take 4 ≠ [114, 101, 103, 102]) :
    RegHeaderBase.from_bytes input = Except.error PErr.tagErr := by
  unfold RegHeaderBase.from_bytes
  exact pbind_error_of (tagP_err_of hm)

/-- With a wrong magic, `RegHeader::from_bytes` fails with the Tag error. -/
theorem regHeader_err_magic {input : List Nat}
    (hm : input.take 4 ≠ [114, 101, 103, 102]) :
    RegHeader.from_bytes input = Except.error PErr.tagErr := by
  unfold RegHeader.from_bytes
  exact pbind_error_of (regHeaderBase_err_magic hm)

/-- `FileBaseBlock::from_bytes` consumes exactly the 4096 header bytes. -/
theorem fileBaseBlock_consumes : ConsumesLen FileBaseBlock.from_bytes 4096 :=
  consumesLen_of_eq
    (consumesLen_pbind (consumesLen_tagP [114, 101, 103, 102]) fun _ =>
     consumesLen_pbind consumesLen_le_u32 fun _ =>
     consumesLen_pbind consumesLen_le_u32 fun _ =>
     consumesLen_pbind consumesLen_le_u64 fun _ =>
     consumesLen_pbind consumesLen_le_u32 fun _ =>
     consumesLen_pbind consumesLen_le_u32 fun _ =>
     consumesLen_pbind consumesLen_le_u32 fun _ =>
     consumesLen_pbind consumesLen_le_u32 fun _ =>
     consumesLen_pbind consumesLen_le_i32 fun _ =>
     consumesLen_pbind consumesLen_le_u32 fun _ =>
     consumesLen_pbind consumesLen_le_u32 fun _ =>
     consumesLen_pbind (consumesLen_takeP 64) fun _ =>
     consumesLen_pbind (consumesLen_takeP 396) fun _ =>
     consumesLen_pbind consumesLen_le_u32 fun _ =>
     consumesLen_pbind (consumesLen_takeP 3576) fun _ =>
     consumesLen_pbind consumesLen_le_u32 fun _ =>
     consumesLen_pbind consumesLen_le_u32 fun _ =>
     consumesLen_ppure _)
    (by decide)

/-- `RegHeaderBase::from_bytes` consumes exactly 512 bytes. -/
theorem regHeaderBase_consumes : ConsumesLen RegHeaderBase.from_bytes 512 :=
  consumesLen_of_eq
    (consumesLen_pbind (consumesLen_tagP [114, 101, 103, 102]) fun _ =>
     consumesLen_pbind consumesLen_le_u32 fun _ =>
     consumesLen_pbind consumesLen_le_u32 fun _ =>
     consumesLen_pbind consumesLen_le_u64 fun _ =>
     consumesLen_pbind consumesLen_le_u32 fun _ =>
     consumesLen_pbind consumesLen_le_u32 fun _ =>
     consumesLen_pbind consumesLen_le_u32 fun _ =>
     consumesLen_pbind consumesLen_le_u32 fun _ =>
     consumesLen_pbind consumesLen_le_i32 fun _ =>
     consumesLen_pbind consumesLen_le_u32 fun _ =>
     consumesLen_pbind consumesLen_le_u32 fun _ =>
     consumesLen_pbind (consumesLen_takeP 64) fun _ =>
     consumesLen_pbind (consumesLen_takeP 396) fun _ =>
     consumesLen_pbind consumesLen_le_u32 fun _ =>
     consumesLen_ppure _)
    (by decide)

/-- `FileBaseBlockReserved::from_bytes` consumes exactly 3576 bytes. -/
theorem reservedBlock_consumes :
    ConsumesLen FileBaseBlockReserved.from_bytes 3576 :=
  consumesLen_of_eq
    (consumesLen_pbind (consumesLen_takeP 16) fun _ =>
     consumesLen_pbind (consumesLen_takeP 16) fun _ =>
     consumesLen_pbind consumesLen_le_u32 fun _ =>
     consumesLen_pbind (consumesLen_takeP 16) fun _ =>
     consumesLen_pbind consumesLen_le_u32 fun _ =>
     consumesLen_pbind consumesLen_le_u64 fun _ =>
     consumesLen_pbind (consumesLen_takeP 3512) fun _ =>
     consumesLen_ppure _)
    (by decide)

/-- `RegHeaderExtended::from_bytes` consumes exactly 3584 bytes. -/
theorem regHeaderExtended_consumes :
    ConsumesLen RegHeaderExtended.from_bytes 3584 :=
  consumesLen_of_eq
    (consumesLen_pbind reservedBlock_consumes fun _ =>
     consumesLen_pbind consumesLen_le_u32 fun _ =>
     consumesLen_pbind consumesLen_le_u32 fun _ =>
     consumesLen_ppure _)
    (by decide)

/-- `RegHeader::from_bytes` consumes exactly the 4096 header bytes. -/
theorem regHeader_consumes : ConsumesLen RegHeader.from_bytes 4096 :=
  consumesLen_of_eq
    (consumesLen_pbind regHeaderBase_consumes fun _ =>
     consumesLen_pbind regHeaderExtended_consumes fun _ =>
     consumesLen_ppure _)
    (by decide)

/-- `FileBaseBlockReserved::from_bytes` contains no `tag`, so it never fails
with a Tag error. -/
theorem noTagFail_reserved : NoTagFail FileBaseBlockReserved.from_bytes :=
  noTagFail_pbind (noTagFail_takeP 16) fun _ =>
  noTagFail_pbind (noTagFail_takeP 16) fun _ =>
  noTagFail_pbind noTagFail_le_u32 fun _ =>
  noTagFail_pbind (noTagFail_takeP 16) fun _ =>
  noTagFail_pbind noTagFail_le_u32 fun _ =>
  noTagFail_pbind noTagFail_le_u64 fun _ =>
  noTagFail_pbind (noTagFail_takeP 3512) fun _ =>
  noTagFail_ppure _

/-- `RegHeaderExtended::from_bytes` contains no `tag` either. -/
theorem noTagFail_ext : NoTagFail RegHeaderExtended.from_bytes :=
  noTagFail_pbind noTagFail_reserved fun _ =>
  noTagFail_pbind noTagFail_le_u32 fun _ =>
  noTagFail_pbind noTagFail_le_u32 fun _ =>
  noTagFail_ppure _

/-- Once the magic matched, a failure of `FileBaseBlock::from_bytes` is a
truncation-style error, never the Tag error. -/
theorem fileBaseBlock_error_kind {input : List Nat} {e : PErr}
    (hm : input.take 4 = [114, 101, 103, 102])
    (h : FileBaseBlock.from_bytes input = Except.error e) :
    e = PErr.eofErr ∨ e = PErr.incompleteErr := by
  unfold FileBaseBlock.from_bytes at h
  rcases pbind_error_inv h with h1 | ⟨rest, a, _, h2⟩
  · have htag : tagP [114, 101, 103, 102] input =
        Except.ok (input.drop 4, [114, 101, 103, 102]) := tagP_ok_of hm
    rw [htag] at h1
    simp at h1
  · exact
      (noTagFail_pbind noTagFail_le_u32 fun _ =>
       noTagFail_pbind noTagFail_le_u32 fun _ =>
       noTagFail_pbind noTagFail_le_u64 fun _ =>
       noTagFail_pbind noTagFail_le_u32 fun _ =>
       noTagFail_pbind noTagFail_le_u32 fun _ =>
       noTagFail_pbind noTagFail_le_u32 fun _ =>
       noTagFail_pbind noTagFail_le_u32 fun _ =>
       noTagFail_pbind noTagFail_le_i32 fun _ =>
       noTagFail_pbind noTagFail_le_u32 fun _ =>
       noTagFail_pbind noTagFail_le_u32 fun _ =>
       noTagFail_pbind (noTagFail_takeP 64) fun _ =>
       noTagFail_pbind (noTagFail_takeP 396) fun _ =>
       noTagFail_pbind noTagFail_le_u32 fun _ =>
       noTagFail_pbind (noTagFail_takeP 3576) fun _ =>
       noTagFail_pbind noTagFail_le_u32 fun _ =>
       noTagFail_pbind noTagFail_le_u32 fun _ =>
       noTagFail_ppure _) rest e h2

/-- Once the magic matched, a failure of `RegHeaderBase::from_bytes` is a
truncation-style error, never the Tag error. -/
theorem regHeaderBase_error_kind {input : List Nat} {e : PErr}
    (hm : input.take 4 = [114, 101, 103, 102])
    (h : RegHeaderBase.from_bytes input = Except.error e) :
    e = PErr.eofErr ∨ e = PErr.incompleteErr := by
  unfold RegHeaderBase.from_bytes at h
  rcases pbind_error_inv h with h1 | ⟨rest, a, _, h2⟩
  · have htag : tagP [114, 101, 103, 102] input =
        Except.ok (input.drop 4, [114, 101, 103, 102]) := tagP_ok_of hm
    rw [htag] at h1
    simp at h1
  · exact
      (noTagFail_pbind noTagFail_le_u32 fun _ =>
       noTagFail_pbind noTagFail_le_u32 fun _ =>
       noTagFail_pbind noTagFail_le_u64 fun _ =>
       noTagFail_pbind noTagFail_le_u32 fun _ =>
       noTagFail_pbind noTagFail_le_u32 fun _ =>
       noTagFail_pbind noTagFail_le_u32 fun _ =>
       noTagFail_pbind noTagFail_le_u32 fun _ =>
       noTagFail_pbind noTagFail_le_i32 fun _ =>
       noTagFail_pbind noTagFail_le_u32 fun _ =>
       noTagFail_pbind noTagFail_le_u32 fun _ =>
       noTagFail_pbind (noTagFail_takeP 64) fun _ =>
       noTagFail_pbind (noTagFail_takeP 396) fun _ =>
       noTagFail_pbind noTagFail_le_u32 fun _ =>
       noTagFail_ppure _) rest e h2

/-- Once the magic matched, a failure of `RegHeader::from_bytes` is a
truncation-style error, never the Tag error. -/
theorem regHeader_error_kind {input : List Nat} {e : PErr}
    (hm : input.take 4 = [114, 101, 103, 102])
    (h : RegHeader.from_bytes input = Except.error e) :
    e = PErr.eofErr ∨ e = PErr.incompleteErr := by
  unfold RegHeader.from_bytes at h
  rcases pbind_error_inv h with h1 | ⟨rest, a, _, h2⟩
  · exact regHeaderBase_error_kind hm h1
  · rcases pbind_error_inv h2 with h3 | ⟨rest2, b, _, h4⟩
    · exact noTagFail_ext rest e h3
    · exact noTagFail_ppure _ rest2 e h4

/-- C9: parsing the base block never returns a header value on bad input.  If
the first four bytes are not `regf`, both base-block parsers
(`FileBaseBlock::from_bytes` and `RegHeader::from_bytes`) fail with the
wrong-magic (Tag) error; if the magic is present but the input is shorter than
the 4096-byte base block, both fail with a truncation error (nom's Eof or
Incomplete), which is distinct from the wrong-magic error. -/
theorem claim_C9_header_errors (input : List Nat) :
    (input.take 4 ≠ [114, 101, 103, 102] →
      FileBaseBlock.from_bytes input = Except.error PErr.tagErr
      ∧ RegHeader.from_bytes input = Except.error PErr.tagErr)
    ∧ (input.take 4 = [114, 101, 103, 102] → input.length < 4096 →
      (∃ e, FileBaseBlock.from_bytes input = Except.error e
        ∧ e ≠ PErr.tagErr ∧ (e = PErr.eofErr ∨ e = PErr.incompleteErr))
      ∧ (∃ e, RegHeader.from_bytes input = Except.error e
        ∧ e ≠ PErr.tagErr ∧ (e = PErr.eofErr ∨ e = PErr.incompleteErr))) := by
  constructor
  · intro hm
    exact ⟨fileBaseBlock_err_magic hm, regHeader_err_magic hm⟩
  · intro hm hshort
    constructor
    · cases hres : FileBaseBlock.from_bytes input with
      | ok pr =>
        obtain ⟨rest, bb⟩ := pr
        have := fileBaseBlock_consumes input rest bb hres
        omega
      | error e =>
        have hk := fileBaseBlock_error_kind hm hres
        refine ⟨e, rfl, ?_, hk⟩
        rcases hk with h | h <;> subst h <;> decide
    · cases hres : RegHeader.from_bytes input with
      | ok pr =>
        obtain ⟨rest, hdr⟩ := pr
        have := regHeader_consumes input rest hdr hres
        omega
      | error e =>
        have hk := regHeader_error_kind hm hres
        refine ⟨e, rfl, ?_, hk⟩
        rcases hk with h | h <;> subst h <;> decide

/-- Witness for C9: a zero buffer with no magic, and a 10-byte fragment with
the magic present (the same shape as the `from_bytes(&f[0..10])` case of the
source's own tests). -/
theorem claim_C9_header_errors_witness :
    (FileBaseBlock.from_bytes (List.replicate 8 0) = Except.error PErr.tagErr
      ∧ RegHeader.from_bytes (List.replicate 8 0) = Except.error PErr.tagErr)
    ∧ ((∃ e, FileBaseBlock.from_bytes ([114, 101, 103, 102] ++ List.replicate 6 0) =
          Except.error e
        ∧ e ≠ PErr.tagErr ∧ (e = PErr.eofErr ∨ e = PErr.incompleteErr))
      ∧ (∃ e, RegHeader.from_bytes ([114, 101, 103, 102] ++ List.replicate 6 0) =
          Except.error e
        ∧ e ≠ PErr.tagErr ∧ (e = PErr.eofErr ∨ e = PErr.incompleteErr))) :=
  ⟨(claim_C9_header_errors (List.replicate 8 0)).1 (by decide),
   (claim_C9_header_errors ([114, 101, 103, 102] ++ List.replicate 6 0)).2
     (by decide) (by decide)⟩

/-- A 4096-byte base block: `regf` magic, file-type field 7 (no such variant
anywhere), format field 1 (`DirectMemoryLoad`), all other bytes zero. -/
def headerInput7 : List Nat :=
  [114, 101, 103, 102] ++ List.replicate 24 0 ++ [7, 0, 0, 0] ++ [1, 0, 0, 0]
    ++ List.replicate 4060 0

/-- A 4096-byte base block: `regf` magic, file-type field 6
(`TransactionLogNewFormat` in reg_header.rs, no corresponding variant in
base_block.rs), format field 1, all other bytes zero. -/
def headerInput6 : List Nat :=
  [114, 101, 103, 102] ++ List.replicate 24 0 ++ [6, 0, 0, 0] ++ [1, 0, 0, 0]
    ++ List.replicate 4060 0

theorem headerInput7_length : headerInput7.length = 4096 := by
  simp only [headerInput7, List.length_append, List.length_replicate, List.length_cons,
    List.length_nil]

theorem headerInput6_length : headerInput6.length = 4096 := by
  simp only [headerInput6, List.length_append, List.length_replicate, List.length_cons,
    List.length_nil]

/-- C5: on a base block whose file-type field holds the undefined value 7,
parsing succeeds in both parsers and the field maps to `Unknown` — parsing is
not aborted.  `RegHeaderBase::from_bytes` (via `impl_enum_from_value`'s
`from_value`) also appends a conversion warning to the parse logs;
`FileBaseBlock::from_bytes` maps the value through a bare `match` with no logs
anywhere in its result (its `Unknown` variants carry `// todo: log warning`),
so the "appends a warning" half of the claim holds only for the reg_header.rs
parser. -/
theorem claim_C5_unknown_enum :
    (∃ rest bb, FileBaseBlock.from_bytes headerInput7 = Except.ok (rest, bb)
      ∧ bb.file_type = FileTypeB.unknown)
    ∧ (∃ rest hb, RegHeaderBase.from_bytes headerInput7 = Except.ok (rest, hb)
      ∧ hb.file_type = FileTypeR.unknown
      ∧ hb.logs = [LogCode.warningConversion]) := by
  constructor
  · exact ⟨_, _, fileBaseBlock_ok headerInput7 rfl headerInput7_length.ge, rfl⟩
  · exact ⟨_, _, regHeaderBase_ok headerInput7 rfl (by rw [headerInput7_length]; omega),
      rfl, rfl⟩

/-- C10 counterexample: on the base block with file-type field 6, the two
parsers succeed but map the field to different variants —
`FileBaseBlock::from_bytes` to `Unknown` (discriminant 0x0fffffff, since
base_block.rs has no variant for 6) and `RegHeader::from_bytes` to
`TransactionLogNewFormat` (discriminant 6). -/
theorem claim_C10_counterexample :
    ∃ r1 bb r2 hdr,
      FileBaseBlock.from_bytes headerInput6 = Except.ok (r1, bb)
      ∧ RegHeader.from_bytes headerInput6 = Except.ok (r2, hdr)
      ∧ bb.file_type = FileTypeB.unknown
      ∧ hdr.base.file_type = FileTypeR.transactionLogNewFormat
      ∧ FileTypeB.val bb.file_type ≠ FileTypeR.val hdr.base.file_type :=
  ⟨_, _, _, _, fileBaseBlock_ok headerInput6 rfl headerInput6_length.ge,
   regHeader_ok headerInput6 rfl headerInput6_length.ge,
   rfl, rfl, by decide⟩

theorem fileType_val_agree (v : Nat) (hv : v ≠ 6) :
    FileTypeB.val
        (match FileTypeB.from_u32 v with
         | some file_type => file_type
         | none => FileTypeB.unknown)
      = FileTypeR.val (FileTypeR.from_value v []).1 := by
  unfold FileTypeB.from_u32 FileTypeR.from_value FileTypeR.from_u32
  by_cases h0 : v = 0
  · subst h0
    rfl
  · by_cases h1 : v = 1
    · subst h1
      rfl
    · by_cases hu : v = 0x0fffffff
      · subst hu
        rfl
      · simp [h0, h1, hu, hv, FileTypeB.val, FileTypeR.val]

theorem format_val_agree (v : Nat) (logs : List LogCode) :
    FileFormatB.val
        (match FileFormatB.from_u32 v with
         | some format => format
         | none => FileFormatB.unknown)
      = FileFormatR.val (FileFormatR.from_value v logs).1 := by
  unfold FileFormatB.from_u32 FileFormatR.from_value FileFormatR.from_u32
  by_cases h1 : v = 1
  · subst h1
    rfl
  · by_cases hu : v = 0x0fffffff
    · subst hu
      rfl
    · simp [h1, hu, FileFormatB.val, FileFormatR.val]

/-- C10 (amended): the two base-block parsers agree on every input — they fail
together, and on success they consume the same 4096 bytes and produce equal
values for every shared field (sequence numbers, modification time, version,
format, root cell offset, hive-bins data size, clustering factor, filename,
checksum, boot type, boot recover) — except that the file-type field agrees
only when its raw value is not 6: `FileBaseBlock` maps 6 to `Unknown` while
`RegHeader` maps it to `TransactionLogNewFormat`. -/
theorem claim_C10_amended (input : List Nat) :
    ((∃ e, FileBaseBlock.from_bytes input = Except.error e) ↔
      (∃ e, RegHeader.from_bytes input = Except.error e))
    ∧ (∀ r1 bb r2 hdr,
        FileBaseBlock.from_bytes input = Except.ok (r1, bb) →
        RegHeader.from_bytes input = Except.ok (r2, hdr) →
        r1 = r2
        ∧ bb.primary_sequence_number = hdr.base.primary_sequence_number
        ∧ bb.secondary_sequence_number = hdr.base.secondary_sequence_number
        ∧ bb.last_modification_date_and_time = hdr.base.last_modification_date_and_time
        ∧ bb.major_version = hdr.base.major_version
        ∧ bb.minor_version = hdr.base.minor_version
        ∧ FileFormatB.val bb.format = FileFormatR.val hdr.base.format
        ∧ bb.root_cell_offset = hdr.base.root_cell_offset_relative
        ∧ bb.hive_bins_data_size = hdr.base.hive_bins_data_size
        ∧ bb.clustering_factor = hdr.base.clustering_factor
        ∧ bb.filename = hdr.base.filename
        ∧ bb.checksum = hdr.base.checksum
        ∧ bb.boot_type = hdr.ext.boot_type
        ∧ bb.boot_recover = hdr.ext.boot_recover
        ∧ (leVal ((input.drop 28).take 4) ≠ 6 →
            FileTypeB.val bb.file_type = FileTypeR.val hdr.base.file_type)) := by
  constructor
  · by_cases hm : input.take 4 = [114, 101, 103, 102]
    · by_cases hl : 4096 ≤ input.length
      · constructor
        · rintro ⟨e, he⟩
          rw [fileBaseBlock_ok input hm hl] at he
          simp at he
        · rintro ⟨e, he⟩
          rw [regHeader_ok input hm hl] at he
          simp at he
      · constructor
        · intro _
          cases hres : RegHeader.from_bytes input with
          | ok pr =>
            obtain ⟨rest, hdr⟩ := pr
            have := regHeader_consumes input rest hdr hres
            omega
          | error e => exact ⟨e, rfl⟩
        · intro _
          cases hres : FileBaseBlock.from_bytes input with
          | ok pr =>
            obtain ⟨rest, bb⟩ := pr
            have := fileBaseBlock_consumes input rest bb hres
            omega
          | error e => exact ⟨e, rfl⟩
    · constructor
      · intro _
        exact ⟨PErr.tagErr, regHeader_err_magic hm⟩
      · intro _
        exact ⟨PErr.tagErr, fileBaseBlock_err_magic hm⟩
  · intro r1 bb r2 hdr h1 h2
    have hm : input.take 4 = [114, 101, 103, 102] := by
      by_contra hmn
      rw [fileBaseBlock_err_magic hmn] at h1
      simp at h1
    have hlen : 4096 ≤ input.length := by
      have := fileBaseBlock_consumes input r1 bb h1
      omega
    rw [fileBaseBlock_ok input hm hlen] at h1
    rw [regHeader_ok input hm hlen] at h2
    simp only [Except.ok.injEq, Prod.mk.injEq] at h1 h2
    obtain ⟨hr1, hbb⟩ := h1
    obtain ⟨hr2, hhdr⟩ := h2
    subst hr1
    subst hbb
    subst hr2
    subst hhdr
    refine ⟨rfl, rfl, rfl, rfl, rfl, rfl, format_val_agree _ _, rfl, rfl, rfl, rfl, rfl,
      rfl, rfl, ?_⟩
    intro h6
    exact fileType_val_agree _ h6

/-- Witness for the amended C10: on the all-zero 8-byte input both parsers
fail together. -/
theorem claim_C10_amended_witness :
    ∃ e, RegHeader.from_bytes (List.replicate 8 0) = Except.error e :=
  (claim_C10_amended (List.replicate 8 0)).1.mp ⟨PErr.tagErr, rfl⟩
